import Mathlib

/-!
Verification development for the static-analysis core of the AI-Code-Reviewer
repository (`backend/analyzer/`).  The Python sources are shallowly embedded:

* `Finding` / `IssueCategory` mirror `backend/analyzer/models.py`;
* `split_lines`, `get_code_context`, `get_line_content` mirror the utilities in
  `backend/analyzer/static_rules.py` (`code.split('\n')`,
  `BaseAnalyzer.get_code_context`, `ASTVisitor.get_line_content`);
* a small backtracking regular-expression engine together with the five secret
  patterns and the SQL pattern mirrors `re.finditer` as used in
  `backend/analyzer/security_rules.py` (all patterns are compiled with
  `re.IGNORECASE`, which the engine applies at character level);
* `PyNode` embeds the fragment of Python's `ast` node language inspected by the
  three visitors, and `security_visit`, `performance_visit`, `quality_visit`
  embed `SecurityVisitor`, `PerformanceVisitor` and `CodeQualityVisitor`
  (`ast.NodeVisitor` dispatch: an overridden `visit_X` runs its checks and then
  `generic_visit`, which recurses into child nodes in field order);
* `analyze_code` embeds the batch entry point in `backend/analyzer/__init__.py`.

Python's parser (`ast.parse`, wrapped by `BaseAnalyzer.parse_ast_safely`) is
external library code; a source file is therefore modelled as a `PyFile`
carrying the raw text together with the parse result `tree : Option PyNode`
(`none` models the `SyntaxError` case of `parse_ast_safely`).
-/

/-- `IssueCategory` from `models.py`. -/
inductive IssueCategory where
  | security
  | performance
  | codeQuality
  deriving DecidableEq, Repr

/-- `Finding` from `models.py`: `line` is 1-based, `context` is optional and
defaults to `None` in the Python model. -/
structure Finding where
  file : String
  line : Nat
  issue : String
  category : IssueCategory
  code_snippet : String
  context : Option String := none
  deriving DecidableEq, Repr

/-- `BaseAnalyzer.create_finding` from `static_rules.py` (a plain constructor
wrapper). -/
def create_finding (file : String) (line : Nat) (issue : String)
    (category : IssueCategory) (code_snippet : String)
    (context : Option String) : Finding :=
  { file := file, line := line, issue := issue, category := category,
    code_snippet := code_snippet, context := context }

/-! ## Line splitting

Every analyzer starts with `lines = code.split('\n')`.  Python's
`str.split('\n')` splits on every line feed and keeps empty pieces; we embed it
directly on the character list. -/

def split_lines_chars : List Char → List (List Char)
  | [] => [[]]
  | c :: rest =>
    if c = '\n' then
      [] :: split_lines_chars rest
    else
      match split_lines_chars rest with
      | [] => [[c]]
      | h :: t => (c :: h) :: t

/-- `code.split('\n')` as used by all three analyzers. -/
def split_lines (code : String) : List String :=
  (split_lines_chars code.data).map (fun l => String.mk l)

theorem split_lines_chars_ne_nil (cs : List Char) : split_lines_chars cs ≠ [] := by
  induction cs with
  | nil => simp [split_lines_chars]
  | cons c rest ih =>
    simp only [split_lines_chars]
    split
    · simp
    · cases h : split_lines_chars rest with
      | nil => simp
      | cons h t => simp

theorem split_lines_chars_length (cs : List Char) :
    (split_lines_chars cs).length = cs.count '\n' + 1 := by
  induction cs with
  | nil => simp [split_lines_chars]
  | cons c rest ih =>
    simp only [split_lines_chars]
    by_cases hc : c = '\n'
    · subst hc
      simp [List.count_cons, ih]
    · simp only [if_neg hc]
      cases h : split_lines_chars rest with
      | nil => exact absurd h (split_lines_chars_ne_nil rest)
      | cons hd tl =>
        simp only [List.length_cons]
        rw [h] at ih
        simp only [List.length_cons] at ih
        simp [List.count_cons, hc, ih]

theorem split_lines_length (code : String) :
    (split_lines code).length = code.data.count '\n' + 1 := by
  simp [split_lines, split_lines_chars_length]

/-- Python's `str.rstrip()`: drop trailing whitespace. -/
def py_rstrip (s : String) : String :=
  String.mk (s.data.reverse.dropWhile Char.isWhitespace).reverse

/-- Python's `str.strip()`: drop leading and trailing whitespace. -/
def py_strip (s : String) : String :=
  String.mk ((s.data.dropWhile Char.isWhitespace).reverse.dropWhile Char.isWhitespace).reverse

/-! ## Context extraction (`BaseAnalyzer.get_code_context`)

```
start = max(0, line_number - context_size - 1)
end = min(len(lines), line_number + context_size)
for i in range(start, end):
    prefix = ">>> " if i == line_number - 1 else "    "
    context_lines.append(f"{prefix}{lines[i].rstrip()}")
return "\n".join(context_lines)
```
with default `context_size = 3`. -/

def get_code_context_lines (lines : List String) (line_number : Nat)
    (context_size : Nat := 3) : List String :=
  -- Python's `max(0, line_number - context_size - 1)` over ints is exactly
  -- truncated subtraction over naturals; `start`/`stop` are inlined below.
  (List.range' (line_number - context_size - 1)
      (min lines.length (line_number + context_size)
        - (line_number - context_size - 1))).map fun (i : Nat) =>
    (if (i : Int) = (line_number : Int) - 1 then ">>> " else "    ")
      ++ py_rstrip ((lines.get? i).getD "")

def get_code_context (lines : List String) (line_number : Nat)
    (context_size : Nat := 3) : String :=
  String.intercalate "\n" (get_code_context_lines lines line_number context_size)

/-- `ASTVisitor.get_line_content`: the stripped text of a 1-based line, or `""`
when the index is out of range. -/
def get_line_content (lines : List String) (lineno : Nat) : String :=
  if 0 ≤ (lineno : Int) - 1 ∧ (lineno : Int) - 1 < lines.length then
    py_strip ((lines.get? (lineno - 1)).getD "")
  else
    ""

/-- The marked target line is always part of the context block when the line
number is in range (this is the content behind the spec's "`context`, when
present, always includes the target line"). -/
theorem get_code_context_lines_contains_target (lines : List String)
    (line_number : Nat) (h1 : 1 ≤ line_number) (h2 : line_number ≤ lines.length) :
    (">>> " ++ py_rstrip ((lines.get? (line_number - 1)).getD ""))
      ∈ get_code_context_lines lines line_number := by
  unfold get_code_context_lines
  simp only [List.mem_map, List.mem_range'_1]
  refine ⟨line_number - 1, ⟨?_, ?_⟩, ?_⟩
  · omega
  · omega
  · have hi : ((line_number - 1 : Nat) : Int) = (line_number : Int) - 1 := by omega
    rw [if_pos hi]

/-! ## Regular-expression engine for the text-pattern detectors

`security_rules.py` runs `re.finditer(pattern, code, re.IGNORECASE)` for five
secret patterns and one SQL pattern.  Each pattern is a concatenation of
simple pieces (case-insensitive literals, single-character classes with `?`,
`*`, `{n}`, `{n,}` or lazy `.*?` quantifiers, and an alternation of literal
words), embedded below with Python's backtracking preference order: greedy
quantifiers try the longest extent first, lazy ones the shortest, and
alternations are tried left to right.  `re.IGNORECASE` is applied at the
character level: a literal compares case-insensitively and a class matches a
character when the class contains it, its lowercase or its uppercase form. -/

/-- The character classes appearing in the six patterns. -/
inductive CharClass where
  | underscoreDash   -- `[_-]`
  | whitespace       -- `\s`
  | quote            -- `["']`
  | wordDash         -- `[A-Za-z0-9_-]`
  | upperDigit       -- `[A-Z0-9]`
  | dot              -- `.` (anything but a line feed; `re.DOTALL` is not set)
  | plusPercent      -- `[+%]`
  deriving DecidableEq, Repr

/-- Raw (case-sensitive) membership of a character in a class. -/
def CharClass.memRaw : CharClass → Char → Bool
  | .underscoreDash, c => c = '_' || c = '-'
  | .whitespace, c => c.isWhitespace
  | .quote, c => c = '"' || c = '\''
  | .wordDash, c => c.isAlpha || c.isDigit || c = '_' || c = '-'
  | .upperDigit, c => ('A' ≤ c && c ≤ 'Z') || c.isDigit
  | .dot, c => c ≠ '\n'
  | .plusPercent, c => c = '+' || c = '%'

/-- Class membership under `re.IGNORECASE`: the character matches if it, its
lowercase or its uppercase form is in the class. -/
def CharClass.memCI (p : CharClass) (c : Char) : Bool :=
  p.memRaw c || p.memRaw c.toLower || p.memRaw c.toUpper

/-- One piece of a compiled pattern. -/
inductive RePiece where
  | litci (s : String)             -- a literal, case-insensitive
  | cls (p : CharClass)            -- one class character
  | opt (p : CharClass)            -- `class?` (greedy)
  | star (p : CharClass)           -- `class*` (greedy)
  | repExact (n : Nat) (p : CharClass)  -- `class{n}`
  | repMin (n : Nat) (p : CharClass)    -- `class{n,}` (greedy)
  | lazyStar (p : CharClass)       -- `class*?` (lazy; used for `.*?`)
  | alt (ws : List String)         -- `(W1|W2|...)` of literal words

/-- Case-insensitive literal match at the head of the input. -/
def litMatch : List Char → List Char → Bool
  | [], _ => true
  | _ :: _, [] => false
  | a :: as, b :: bs => a.toLower = b.toLower && litMatch as bs

/-- Length of the maximal run of class characters at the head of the input. -/
def charRun (p : CharClass) : List Char → Nat
  | [] => 0
  | c :: rest => if p.memCI c then charRun p rest + 1 else 0

/-- The remainders a piece can leave, in Python's backtracking preference
order (greedy: longest first; lazy: shortest first; alternation: left to
right). -/
def candidatesFor : RePiece → List Char → List (List Char)
  | .litci s, cs => if litMatch s.data cs then [cs.drop s.length] else []
  | .cls p, cs =>
    match cs with
    | c :: r => if p.memCI c then [r] else []
    | [] => []
  | .opt p, cs =>
    (match cs with
     | c :: r => if p.memCI c then [r] else []
     | [] => []) ++ [cs]
  | .star p, cs =>
    ((List.range (charRun p cs + 1)).reverse).map (cs.drop ·)
  | .repExact n p, cs => if n ≤ charRun p cs then [cs.drop n] else []
  | .repMin n p, cs =>
    let k := charRun p cs
    if n ≤ k then
      (List.range (k - n + 1)).map (fun j => cs.drop (k - j))
    else []
  | .lazyStar p, cs => (List.range (charRun p cs + 1)).map (cs.drop ·)
  | .alt ws, cs =>
    ws.filterMap fun w =>
      if litMatch w.data cs then some (cs.drop w.length) else none

/-- Backtracking matcher: the first remainder (in preference order) left after
matching the whole sequence of pieces at the head of the input, as Python's
engine would produce it. -/
def matchSeq : List RePiece → List Char → Option (List Char)
  | [], cs => some cs
  | p :: rest, cs => (candidatesFor p cs).findSome? (matchSeq rest)

/-- One scanning step of `re.finditer`: at text position `pos` (with `rem` the
remaining characters), try a match; on success emit `(start, end)` character
offsets and resume at the match end (Python advances by one position after an
empty match), otherwise advance one position.  The fuel only bounds the
number of scanning steps; `finditer_go_fuel_irrelevant` below shows any fuel
of at least `rem.length + 1` gives the same result. -/
def finditer_go (pieces : List RePiece) : Nat → Nat → List Char → List (Nat × Nat)
  | 0, _, _ => []
  | fuel + 1, pos, rem =>
    match matchSeq pieces rem with
    | some r =>
      let e := pos + (rem.length - r.length)
      if r.length < rem.length then
        (pos, e) :: finditer_go pieces fuel e r
      else
        -- empty match: emit and move one character forward
        (pos, e) ::
          (match rem with
           | [] => []
           | _ :: r' => finditer_go pieces fuel (pos + 1) r')
    | none =>
      match rem with
      | [] => []
      | _ :: r' => finditer_go pieces fuel (pos + 1) r'

/-- `re.finditer(pattern, code, re.IGNORECASE)`: the `(start, end)` character
offsets of the non-overlapping matches, scanned left to right. -/
def finditer (pieces : List RePiece) (cs : List Char) : List (Nat × Nat) :=
  finditer_go pieces (cs.length + 1) 0 cs

/-- Each scanning step either stops or strictly shrinks `rem`, so any fuel of
at least `rem.length + 1` computes the full scan: the chosen fuel is adequate. -/
theorem finditer_go_fuel_irrelevant (pieces : List RePiece) :
    ∀ f₁ f₂ pos rem, rem.length + 1 ≤ f₁ → rem.length + 1 ≤ f₂ →
      finditer_go pieces f₁ pos rem = finditer_go pieces f₂ pos rem := by
  intro f₁
  induction f₁ using Nat.strong_induction_on with
  | _ f₁ ih =>
    intro f₂ pos rem h₁ h₂
    match f₁, f₂ with
    | fa + 1, fb + 1 =>
      simp only [finditer_go]
      cases hm : matchSeq pieces rem with
      | some r =>
        simp only []
        by_cases hr : r.length < rem.length
        · simp only [if_pos hr]
          have : r.length + 1 ≤ fa := by omega
          rw [ih fa (by omega) fb _ r this (by omega)]
        · simp only [if_neg hr]
          cases rem with
          | nil => rfl
          | cons c r' =>
            simp only []
            have : r'.length + 1 ≤ fa := by simp at h₁; omega
            rw [ih fa (by omega) fb _ r' this (by simp at h₂; omega)]
      | none =>
        cases rem with
        | nil => rfl
        | cons c r' =>
          simp only []
          have : r'.length + 1 ≤ fa := by simp at h₁; omega
          rw [ih fa (by omega) fb _ r' this (by simp at h₂; omega)]

/-! ## The six text patterns of `security_rules.py`

```
(r'api[_-]?key\s*=\s*["\']([A-Za-z0-9_-]{20,})["\']', "Hardcoded API key detected"),
(r'password\s*=\s*["\'](.{3,})["\']', "Hardcoded password detected"),
(r'secret[_-]?key\s*=\s*["\'](.{10,})["\']', "Hardcoded secret key detected"),
(r'token\s*=\s*["\']([A-Za-z0-9_-]{20,})["\']', "Hardcoded token detected"),
(r'aws[_-]?access[_-]?key[_-]?id\s*=\s*["\']([A-Z0-9]{20})["\']', "Hardcoded AWS access key detected"),
```
and `r'(SELECT|INSERT|UPDATE|DELETE|DROP).*?[+%].*?(WHERE|FROM|INTO|VALUES)'`,
all matched with `re.IGNORECASE`.  The capturing groups only affect
`match.group`, never the match extent, so they are not represented. -/

def api_key_pattern : List RePiece :=
  [.litci "api", .opt .underscoreDash, .litci "key", .star .whitespace,
   .litci "=", .star .whitespace, .cls .quote, .repMin 20 .wordDash, .cls .quote]

def password_pattern : List RePiece :=
  [.litci "password", .star .whitespace, .litci "=", .star .whitespace,
   .cls .quote, .repMin 3 .dot, .cls .quote]

def secret_key_pattern : List RePiece :=
  [.litci "secret", .opt .underscoreDash, .litci "key", .star .whitespace,
   .litci "=", .star .whitespace, .cls .quote, .repMin 10 .dot, .cls .quote]

def token_pattern : List RePiece :=
  [.litci "token", .star .whitespace, .litci "=", .star .whitespace,
   .cls .quote, .repMin 20 .wordDash, .cls .quote]

def aws_key_pattern : List RePiece :=
  [.litci "aws", .opt .underscoreDash, .litci "access", .opt .underscoreDash,
   .litci "key", .opt .underscoreDash, .litci "id", .star .whitespace,
   .litci "=", .star .whitespace, .cls .quote, .repExact 20 .upperDigit,
   .cls .quote]

def sql_pattern : List RePiece :=
  [.alt ["SELECT", "INSERT", "UPDATE", "DELETE", "DROP"], .lazyStar .dot,
   .cls .plusPercent, .lazyStar .dot, .alt ["WHERE", "FROM", "INTO", "VALUES"]]

/-- The ordered `patterns` list of `SecurityAnalyzer._check_hardcoded_secrets`. -/
def secret_patterns : List (List RePiece × String) :=
  [(api_key_pattern, "Hardcoded API key detected"),
   (password_pattern, "Hardcoded password detected"),
   (secret_key_pattern, "Hardcoded secret key detected"),
   (token_pattern, "Hardcoded token detected"),
   (aws_key_pattern, "Hardcoded AWS access key detected")]

/-- `line_num = code[:match.start()].count('\n') + 1`. -/
def line_of_offset (code : String) (start : Nat) : Nat :=
  (code.data.take start).count '\n' + 1

/-- `SecurityAnalyzer._check_hardcoded_secrets`. -/
def check_hardcoded_secrets (filename code : String) (lines : List String) :
    List Finding :=
  secret_patterns.flatMap fun pm =>
    (finditer pm.1 code.data).map fun se =>
      let line_num := line_of_offset code se.1
      let snippet := py_strip ((lines.get? (line_num - 1)).getD "")
      create_finding filename line_num pm.2 IssueCategory.security snippet
        (some (get_code_context lines line_num))

/-- `SecurityAnalyzer._check_sql_injection`. -/
def check_sql_injection (filename code : String) (lines : List String) :
    List Finding :=
  (finditer sql_pattern code.data).map fun se =>
    let line_num := line_of_offset code se.1
    let snippet := py_strip ((lines.get? (line_num - 1)).getD "")
    create_finding filename line_num
      "Potential SQL injection: SQL query uses string concatenation"
      IssueCategory.security snippet (some (get_code_context lines line_num))

/-! ## The Python AST fragment inspected by the visitors

`PyNode` embeds the node kinds that `SecurityVisitor`, `PerformanceVisitor`
and `CodeQualityVisitor` dispatch on or recurse through.  As in Python's
`ast`, every node kind lives in one type; `lineno` fields are 1-based.
Simplifications relative to `ast` (none of them inspected by any detector):
function arguments are kept as their name strings (`len(node.args.args)` and
docstrings are all the code reads), decorator lists, `ctx` markers and
operator objects are dropped, and `Return`'s optional value is a list of at
most one node. -/

inductive PyConst where
  | str (s : String)
  | int (n : Int)
  | bool (b : Bool)
  | noneC
  deriving DecidableEq, Repr

inductive PyNode where
  | module (body : List PyNode)
  | functionDef (nm : String) (argNames : List String) (body : List PyNode)
      (lineno endLineno : Nat)
  | asyncFunctionDef (nm : String) (argNames : List String) (body : List PyNode)
      (lineno endLineno : Nat)
  | classDef (nm : String) (body : List PyNode) (lineno : Nat)
  | forS (target iter : PyNode) (body orelse : List PyNode) (lineno : Nat)
  | whileS (test : PyNode) (body orelse : List PyNode) (lineno : Nat)
  | ifS (test : PyNode) (body orelse : List PyNode) (lineno : Nat)
  | tryS (body handlers orelse finalbody : List PyNode) (lineno : Nat)
  | exceptHandler (body : List PyNode) (lineno : Nat)
  | assign (targets : List PyNode) (value : PyNode) (lineno : Nat)
  | exprS (value : PyNode) (lineno : Nat)
  | ret (value : List PyNode) (lineno : Nat)
  | call (func : PyNode) (args keywords : List PyNode) (lineno : Nat)
  | keywordArg (arg : Option String) (value : PyNode)
  | Attribute (value : PyNode) (attr : String) (lineno : Nat)
  | name (id : String) (lineno : Nat)
  | constant (value : PyConst) (lineno : Nat)
  | boolOp (values : List PyNode) (lineno : Nat)
  | listComp (elt : PyNode) (generators : List PyNode) (lineno : Nat)
  | comprehension (target iter : PyNode) (ifs : List PyNode)
  | awaitE (value : PyNode) (lineno : Nat)

/-- Child nodes in `ast` field order (the order `generic_visit` and `ast.walk`
enumerate them). -/
def node_children : PyNode → List PyNode
  | .module body => body
  | .functionDef _ _ body _ _ => body
  | .asyncFunctionDef _ _ body _ _ => body
  | .classDef _ body _ => body
  | .forS t i b o _ => t :: i :: (b ++ o)
  | .whileS t b o _ => t :: (b ++ o)
  | .ifS t b o _ => t :: (b ++ o)
  | .tryS b h o f _ => b ++ h ++ o ++ f
  | .exceptHandler b _ => b
  | .assign ts v _ => ts ++ [v]
  | .exprS v _ => [v]
  | .ret v _ => v
  | .call f a k _ => f :: (a ++ k)
  | .keywordArg _ v => [v]
  | .Attribute v _ _ => [v]
  | .name _ _ => []
  | .constant _ _ => []
  | .boolOp vs _ => vs
  | .listComp e g _ => e :: g
  | .comprehension t i ifs => t :: i :: ifs
  | .awaitE v _ => [v]

mutual
/-- Number of nodes in a subtree (used as fuel for the breadth-first walk). -/
def node_size : PyNode → Nat
  | .module body => 1 + node_size_list body
  | .functionDef _ _ body _ _ => 1 + node_size_list body
  | .asyncFunctionDef _ _ body _ _ => 1 + node_size_list body
  | .classDef _ body _ => 1 + node_size_list body
  | .forS t i b o _ => 1 + node_size t + node_size i + node_size_list b + node_size_list o
  | .whileS t b o _ => 1 + node_size t + node_size_list b + node_size_list o
  | .ifS t b o _ => 1 + node_size t + node_size_list b + node_size_list o
  | .tryS b h o f _ =>
    1 + node_size_list b + node_size_list h + node_size_list o + node_size_list f
  | .exceptHandler b _ => 1 + node_size_list b
  | .assign ts v _ => 1 + node_size_list ts + node_size v
  | .exprS v _ => 1 + node_size v
  | .ret v _ => 1 + node_size_list v
  | .call f a k _ => 1 + node_size f + node_size_list a + node_size_list k
  | .keywordArg _ v => 1 + node_size v
  | .Attribute v _ _ => 1 + node_size v
  | .name _ _ => 1
  | .constant _ _ => 1
  | .boolOp vs _ => 1 + node_size_list vs
  | .listComp e g _ => 1 + node_size e + node_size_list g
  | .comprehension t i ifs => 1 + node_size t + node_size i + node_size_list ifs
  | .awaitE v _ => 1 + node_size v

def node_size_list : List PyNode → Nat
  | [] => 0
  | h :: t => node_size h + node_size_list t
end

mutual
/-- Well-formed parse output relative to a file of `len` lines: every `lineno`
produced by `ast.parse` is between 1 and the number of lines of the source. -/
def wf_node (len : Nat) : PyNode → Bool
  | .module body => wf_node_list len body
  | .functionDef _ _ body l _ => 1 ≤ l && l ≤ len && wf_node_list len body
  | .asyncFunctionDef _ _ body l _ => 1 ≤ l && l ≤ len && wf_node_list len body
  | .classDef _ body l => 1 ≤ l && l ≤ len && wf_node_list len body
  | .forS t i b o l =>
    1 ≤ l && l ≤ len && wf_node len t && wf_node len i &&
      wf_node_list len b && wf_node_list len o
  | .whileS t b o l =>
    1 ≤ l && l ≤ len && wf_node len t && wf_node_list len b && wf_node_list len o
  | .ifS t b o l =>
    1 ≤ l && l ≤ len && wf_node len t && wf_node_list len b && wf_node_list len o
  | .tryS b h o f l =>
    1 ≤ l && l ≤ len && wf_node_list len b && wf_node_list len h &&
      wf_node_list len o && wf_node_list len f
  | .exceptHandler b l => 1 ≤ l && l ≤ len && wf_node_list len b
  | .assign ts v l => 1 ≤ l && l ≤ len && wf_node_list len ts && wf_node len v
  | .exprS v l => 1 ≤ l && l ≤ len && wf_node len v
  | .ret v l => 1 ≤ l && l ≤ len && wf_node_list len v
  | .call f a k l =>
    1 ≤ l && l ≤ len && wf_node len f && wf_node_list len a && wf_node_list len k
  | .keywordArg _ v => wf_node len v
  | .Attribute v _ l => 1 ≤ l && l ≤ len && wf_node len v
  | .name _ l => 1 ≤ l && l ≤ len
  | .constant _ l => 1 ≤ l && l ≤ len
  | .boolOp vs l => 1 ≤ l && l ≤ len && wf_node_list len vs
  | .listComp e g l => 1 ≤ l && l ≤ len && wf_node len e && wf_node_list len g
  | .comprehension t i ifs =>
    wf_node len t && wf_node len i && wf_node_list len ifs
  | .awaitE v l => 1 ≤ l && l ≤ len && wf_node len v

def wf_node_list (len : Nat) : List PyNode → Bool
  | [] => true
  | h :: t => wf_node len h && wf_node_list len t
end

/-! ## `SecurityVisitor` (`security_rules.py`)

`visit_Call` runs `_check_dangerous_eval_exec`, `_check_pickle_loads` and
`_check_unsafe_system_calls` in that order, then `generic_visit`; every other
node kind only gets `generic_visit`. -/

/-- `SecurityVisitor._check_dangerous_eval_exec`. -/
def check_dangerous_eval_exec (fn : String) (lines : List String)
    (func : PyNode) (lineno : Nat) : List Finding :=
  match func with
  | .name id _ =>
    if id = "eval" || id = "exec" then
      [create_finding fn lineno
        ("Dangerous function '" ++ id ++ "()' detected - can execute arbitrary code")
        IssueCategory.security (get_line_content lines lineno)
        (some (get_code_context lines lineno))]
    else []
  | _ => []

/-- `SecurityVisitor._check_pickle_loads`: `pickle.loads(...)`, or — as an
explicitly "simplified check" — any bare call named `loads`. -/
def check_pickle_loads (fn : String) (lines : List String)
    (func : PyNode) (lineno : Nat) : List Finding :=
  let is_pickle_loads :=
    match func with
    | .Attribute (.name "pickle" _) "loads" _ => true
    | .name "loads" _ => true
    | _ => false
  if is_pickle_loads then
    [create_finding fn lineno
      "Use of pickle.loads() can execute arbitrary code from untrusted data"
      IssueCategory.security (get_line_content lines lineno)
      (some (get_code_context lines lineno))]
  else []

/-- `SecurityVisitor._check_unsafe_system_calls`: `os.system(...)`, or a
`Popen`/`call`/`run` attribute call with a keyword argument `shell=True`. -/
def check_unsafe_system_calls (fn : String) (lines : List String)
    (func : PyNode) (keywords : List PyNode) (lineno : Nat) : List Finding :=
  match func with
  | .Attribute recv attr _ =>
    if attr = "system" then
      match recv with
      | .name "os" _ =>
        [create_finding fn lineno
          "os.system() is unsafe - use subprocess with proper argument handling"
          IssueCategory.security (get_line_content lines lineno)
          (some (get_code_context lines lineno))]
      | _ => []
    else if attr = "Popen" || attr = "call" || attr = "run" then
      keywords.flatMap fun kw =>
        match kw with
        | .keywordArg (some "shell") (.constant (.bool true) _) =>
          [create_finding fn lineno
            "subprocess with shell=True is vulnerable to injection attacks"
            IssueCategory.security (get_line_content lines lineno)
            (some (get_code_context lines lineno))]
        | _ => []
    else []
  | _ => []

mutual
def security_visit (fn : String) (lines : List String) : PyNode → List Finding
  | .call f a k l =>
    check_dangerous_eval_exec fn lines f l ++
    check_pickle_loads fn lines f l ++
    check_unsafe_system_calls fn lines f k l ++
    security_visit fn lines f ++
    security_visit_list fn lines a ++
    security_visit_list fn lines k
  | .module body => security_visit_list fn lines body
  | .functionDef _ _ body _ _ => security_visit_list fn lines body
  | .asyncFunctionDef _ _ body _ _ => security_visit_list fn lines body
  | .classDef _ body _ => security_visit_list fn lines body
  | .forS t i b o _ =>
    security_visit fn lines t ++ security_visit fn lines i ++
    security_visit_list fn lines b ++ security_visit_list fn lines o
  | .whileS t b o _ =>
    security_visit fn lines t ++ security_visit_list fn lines b ++
    security_visit_list fn lines o
  | .ifS t b o _ =>
    security_visit fn lines t ++ security_visit_list fn lines b ++
    security_visit_list fn lines o
  | .tryS b h o f _ =>
    security_visit_list fn lines b ++ security_visit_list fn lines h ++
    security_visit_list fn lines o ++ security_visit_list fn lines f
  | .exceptHandler b _ => security_visit_list fn lines b
  | .assign ts v _ =>
    security_visit_list fn lines ts ++ security_visit fn lines v
  | .exprS v _ => security_visit fn lines v
  | .ret v _ => security_visit_list fn lines v
  | .keywordArg _ v => security_visit fn lines v
  | .Attribute v _ _ => security_visit fn lines v
  | .name _ _ => []
  | .constant _ _ => []
  | .boolOp vs _ => security_visit_list fn lines vs
  | .listComp e g _ =>
    security_visit fn lines e ++ security_visit_list fn lines g
  | .comprehension t i ifs =>
    security_visit fn lines t ++ security_visit fn lines i ++
    security_visit_list fn lines ifs
  | .awaitE v _ => security_visit fn lines v

def security_visit_list (fn : String) (lines : List String) :
    List PyNode → List Finding
  | [] => []
  | h :: t => security_visit fn lines h ++ security_visit_list fn lines t
end

/-- `SecurityAnalyzer.analyze`: regex checks always run; the visitor runs only
when `parse_ast_safely` succeeded. -/
def SecurityAnalyzer_analyze (filename code : String) (tree : Option PyNode) :
    List Finding :=
  let lines := split_lines code
  check_hardcoded_secrets filename code lines ++
  check_sql_injection filename code lines ++
  (match tree with
   | some t => security_visit filename lines t
   | none => [])

/-! ## `PerformanceVisitor` (`performance_rules.py`)

Traversal-scoped state is `loop_depth` (incremented on entering `For`/`While`,
decremented on exit) and `in_async_function` (saved and restored around
`AsyncFunctionDef` — and only around `AsyncFunctionDef`: no other node kind
touches it).  Since every mutation is save/restore-scoped, the state threads
as two parameters. -/

def blocking_funcs : List String := ["sleep", "read", "write", "connect"]

/-- The finding a matching `.append(...)` call contributes during the
`ast.walk` scan of a depth-1 `for` loop. -/
def append_finding (fn : String) (lines : List String) (lineno : Nat) : Finding :=
  create_finding fn lineno
    "List append in loop - consider using list comprehension for better performance"
    IssueCategory.performance (get_line_content lines lineno)
    (some (get_code_context lines lineno))

/-- The `for child in ast.walk(node)` scan in `visit_For`: a breadth-first
walk of the subtree (the node itself first, then children level by level),
emitting a finding for every `Call` whose func is an attribute named
`append`.  The fuel only bounds the step count; `walk_append_go_fuel_irrelevant`
shows the chosen fuel (`node_size`, the number of nodes) is adequate. -/
def walk_append_go (fn : String) (lines : List String) :
    Nat → List PyNode → List Finding
  | 0, _ => []
  | _ + 1, [] => []
  | fuel + 1, h :: t =>
    (match h with
     | .call (.Attribute _ "append" _) _ _ cl => [append_finding fn lines cl]
     | _ => []) ++
    walk_append_go fn lines fuel (t ++ node_children h)

def walk_append (fn : String) (lines : List String) (node : PyNode) :
    List Finding :=
  walk_append_go fn lines (node_size node) [node]

/-- The body of `visit_Call`'s `if self.in_async_function:` block. -/
def blocking_call_check (fn : String) (lines : List String)
    (func : PyNode) (lineno : Nat) : List Finding :=
  match func with
  | .Attribute recv attr _ =>
    if attr ∈ blocking_funcs then
      match recv with
      | .name "asyncio" _ => []   -- "Make sure it's not asyncio.sleep"
      | _ =>
        [create_finding fn lineno
          ("Blocking call '" ++ attr ++ "()' in async function - use async version")
          IssueCategory.performance (get_line_content lines lineno)
          (some (get_code_context lines lineno))]
    else []
  | .name id _ =>
    if id = "sleep" then
      [create_finding fn lineno
        "Use 'await asyncio.sleep()' instead of 'time.sleep()' in async functions"
        IssueCategory.performance (get_line_content lines lineno)
        (some (get_code_context lines lineno))]
    else []
  | _ => []

/-- The deep-nesting finding of `visit_For` (`depth` is the value of
`self.loop_depth` after the increment). -/
def deep_for_finding (fn : String) (lines : List String) (depth lineno : Nat) :
    Finding :=
  create_finding fn lineno
    ("Deeply nested loop (depth " ++ toString depth ++ ") may cause performance issues")
    IssueCategory.performance (get_line_content lines lineno)
    (some (get_code_context lines lineno))

/-- The deep-nesting finding of `visit_While`. -/
def deep_while_finding (fn : String) (lines : List String) (depth lineno : Nat) :
    Finding :=
  create_finding fn lineno
    ("Deeply nested while loop (depth " ++ toString depth ++ ") may cause performance issues")
    IssueCategory.performance (get_line_content lines lineno)
    (some (get_code_context lines lineno))

mutual
def performance_visit (fn : String) (lines : List String)
    (depth : Nat) (inAsync : Bool) : PyNode → List Finding
  | .forS t i b o l =>
    -- visit_For: depth is incremented, the deep check and the append scan
    -- run, then generic_visit at the new depth, then the decrement.
    (if depth + 1 ≥ 3 then [deep_for_finding fn lines (depth + 1) l] else []) ++
    (if depth + 1 = 1 then walk_append fn lines (.forS t i b o l) else []) ++
    performance_visit fn lines (depth + 1) inAsync t ++
    performance_visit fn lines (depth + 1) inAsync i ++
    performance_visit_list fn lines (depth + 1) inAsync b ++
    performance_visit_list fn lines (depth + 1) inAsync o
  | .whileS t b o l =>
    (if depth + 1 ≥ 3 then [deep_while_finding fn lines (depth + 1) l] else []) ++
    performance_visit fn lines (depth + 1) inAsync t ++
    performance_visit_list fn lines (depth + 1) inAsync b ++
    performance_visit_list fn lines (depth + 1) inAsync o
  | .asyncFunctionDef _ _ body _ _ =>
    -- visit_AsyncFunctionDef: flag set for the children, restored after.
    performance_visit_list fn lines depth true body
  | .call f a k l =>
    (if inAsync then blocking_call_check fn lines f l else []) ++
    performance_visit fn lines depth inAsync f ++
    performance_visit_list fn lines depth inAsync a ++
    performance_visit_list fn lines depth inAsync k
  | .listComp e g l =>
    (g.flatMap fun gen =>
      match gen with
      | .comprehension _ (.listComp _ _ _) _ =>
        [create_finding fn l
          "Nested list comprehension detected - consider breaking into separate steps for readability"
          IssueCategory.performance (get_line_content lines l)
          (some (get_code_context lines l))]
      | _ => []) ++
    performance_visit fn lines depth inAsync e ++
    performance_visit_list fn lines depth inAsync g
  | .module body => performance_visit_list fn lines depth inAsync body
  | .functionDef _ _ body _ _ =>
    -- no visit_FunctionDef override: plain generic_visit, state unchanged.
    performance_visit_list fn lines depth inAsync body
  | .classDef _ body _ => performance_visit_list fn lines depth inAsync body
  | .ifS t b o _ =>
    performance_visit fn lines depth inAsync t ++
    performance_visit_list fn lines depth inAsync b ++
    performance_visit_list fn lines depth inAsync o
  | .tryS b h o f _ =>
    performance_visit_list fn lines depth inAsync b ++
    performance_visit_list fn lines depth inAsync h ++
    performance_visit_list fn lines depth inAsync o ++
    performance_visit_list fn lines depth inAsync f
  | .exceptHandler b _ => performance_visit_list fn lines depth inAsync b
  | .assign ts v _ =>
    performance_visit_list fn lines depth inAsync ts ++
    performance_visit fn lines depth inAsync v
  | .exprS v _ => performance_visit fn lines depth inAsync v
  | .ret v _ => performance_visit_list fn lines depth inAsync v
  | .keywordArg _ v => performance_visit fn lines depth inAsync v
  | .Attribute v _ _ => performance_visit fn lines depth inAsync v
  | .name _ _ => []
  | .constant _ _ => []
  | .boolOp vs _ => performance_visit_list fn lines depth inAsync vs
  | .comprehension t i ifs =>
    performance_visit fn lines depth inAsync t ++
    performance_visit fn lines depth inAsync i ++
    performance_visit_list fn lines depth inAsync ifs
  | .awaitE v _ => performance_visit fn lines depth inAsync v

def performance_visit_list (fn : String) (lines : List String)
    (depth : Nat) (inAsync : Bool) : List PyNode → List Finding
  | [] => []
  | h :: t =>
    performance_visit fn lines depth inAsync h ++
    performance_visit_list fn lines depth inAsync t
end

/-- `PerformanceAnalyzer.analyze`. -/
def PerformanceAnalyzer_analyze (filename code : String) (tree : Option PyNode) :
    List Finding :=
  let lines := split_lines code
  match tree with
  | some t => performance_visit filename lines 0 false t
  | none => []

/-! ## `CodeQualityVisitor` (`code_quality_rules.py`)

`visit_FunctionDef` handles `ast.FunctionDef` only — `ast.NodeVisitor`
dispatches `AsyncFunctionDef` to `generic_visit` since no
`visit_AsyncFunctionDef` is defined, so asynchronous functions get none of
the four function checks.  `visit_ClassDef` and `visit_Name` are also
overridden. -/

/-- `ast.get_docstring`: the string of a leading `Expr(Constant(str))`
statement.  (`ast.get_docstring` additionally cleans indentation, which does
not affect emptiness for the string literals modelled here.) -/
def get_docstring : List PyNode → Option String
  | .exprS (.constant (.str s) _) _ :: _ => some s
  | _ => none

/-- `if not docstring`: missing, or present but equal to the empty string
(Python falsiness). -/
def docstring_missing (body : List PyNode) : Bool :=
  match get_docstring body with
  | none => true
  | some s => s = ""

mutual
/-- `CodeQualityVisitor._calculate_complexity` without the base 1: the summed
contribution of every node of the subtree (including the root), where
`If`/`For`/`While`/`ExceptHandler` contribute 1 and a `BoolOp` contributes
`len(values) - 1`.  `ast.walk` enumerates exactly these nodes; only the sum
is used, so the enumeration order is irrelevant. -/
def complexity_count : PyNode → Nat
  | .module body => complexity_count_list body
  | .functionDef _ _ body _ _ => complexity_count_list body
  | .asyncFunctionDef _ _ body _ _ => complexity_count_list body
  | .classDef _ body _ => complexity_count_list body
  | .forS t i b o _ =>
    1 + complexity_count t + complexity_count i +
      complexity_count_list b + complexity_count_list o
  | .whileS t b o _ =>
    1 + complexity_count t + complexity_count_list b + complexity_count_list o
  | .ifS t b o _ =>
    1 + complexity_count t + complexity_count_list b + complexity_count_list o
  | .tryS b h o f _ =>
    complexity_count_list b + complexity_count_list h +
      complexity_count_list o + complexity_count_list f
  | .exceptHandler b _ => 1 + complexity_count_list b
  | .assign ts v _ => complexity_count_list ts + complexity_count v
  | .exprS v _ => complexity_count v
  | .ret v _ => complexity_count_list v
  | .call f a k _ =>
    complexity_count f + complexity_count_list a + complexity_count_list k
  | .keywordArg _ v => complexity_count v
  | .Attribute v _ _ => complexity_count v
  | .name _ _ => 0
  | .constant _ _ => 0
  | .boolOp vs _ => (vs.length - 1) + complexity_count_list vs
  | .listComp e g _ => complexity_count e + complexity_count_list g
  | .comprehension t i ifs =>
    complexity_count t + complexity_count i + complexity_count_list ifs
  | .awaitE v _ => complexity_count v

def complexity_count_list : List PyNode → Nat
  | [] => 0
  | h :: t => complexity_count h + complexity_count_list t
end

/-- `CodeQualityVisitor._calculate_complexity`. -/
def calculate_complexity (node : PyNode) : Nat :=
  1 + complexity_count node

/-- The four function checks of `visit_FunctionDef`, in source order:
length, docstring, parameter count, complexity. -/
def function_def_checks (fn : String) (lines : List String) (nm : String)
    (argNames : List String) (body : List PyNode) (lineno endLineno : Nat) :
    List Finding :=
  -- _check_function_length (modern parses always carry `end_lineno`)
  (if endLineno - lineno > 50 then
    [create_finding fn lineno
      ("Function '" ++ nm ++ "' is too long (" ++ toString (endLineno - lineno)
        ++ " lines) - consider breaking it down")
      IssueCategory.codeQuality ("def " ++ nm ++ "(...)")
      (some (get_code_context lines lineno))]
  else []) ++
  -- _check_missing_docstring
  (if docstring_missing body && !(nm.startsWith "_") then
    [create_finding fn lineno
      ("Function '" ++ nm ++ "' is missing a docstring")
      IssueCategory.codeQuality ("def " ++ nm ++ "(...)")
      (some (get_code_context lines lineno))]
  else []) ++
  -- _check_parameter_count
  (if argNames.length > 5 then
    [create_finding fn lineno
      ("Function '" ++ nm ++ "' has too many parameters (" ++ toString argNames.length
        ++ ") - consider using a config object")
      IssueCategory.codeQuality ("def " ++ nm ++ "(...)")
      (some (get_code_context lines lineno))]
  else []) ++
  -- _check_complexity
  (if calculate_complexity (.functionDef nm argNames body lineno endLineno) > 10 then
    [create_finding fn lineno
      ("Function '" ++ nm ++ "' has high cyclomatic complexity ("
        ++ toString (calculate_complexity (.functionDef nm argNames body lineno endLineno))
        ++ ") - consider simplifying")
      IssueCategory.codeQuality ("def " ++ nm ++ "(...)")
      (some (get_code_context lines lineno))]
  else [])

/-- `isinstance(body_node, ast.FunctionDef)` — direct synchronous
function-definition children only. -/
def is_function_def : PyNode → Bool
  | .functionDef _ _ _ _ _ => true
  | _ => false

/-- The two class checks of `visit_ClassDef`: docstring, then method count. -/
def class_def_checks (fn : String) (lines : List String) (nm : String)
    (body : List PyNode) (lineno : Nat) : List Finding :=
  (if docstring_missing body && !(nm.startsWith "_") then
    [create_finding fn lineno
      ("Class '" ++ nm ++ "' is missing a docstring")
      IssueCategory.codeQuality ("class " ++ nm ++ ":")
      (some (get_code_context lines lineno))]
  else []) ++
  (if (body.filter is_function_def).length > 20 then
    [create_finding fn lineno
      ("Class '" ++ nm ++ "' has too many methods (" ++ toString (body.filter is_function_def).length
        ++ ") - consider splitting into multiple classes")
      IssueCategory.codeQuality ("class " ++ nm ++ ":")
      (some (get_code_context lines lineno))]
  else [])

def single_letter_allowed : List String := ["i", "j", "k", "x", "y", "z", "_"]

mutual
def quality_visit (fn : String) (lines : List String) : PyNode → List Finding
  | .functionDef nm argNames body l e =>
    function_def_checks fn lines nm argNames body l e ++
    quality_visit_list fn lines body
  | .asyncFunctionDef _ _ body _ _ =>
    -- no visit_AsyncFunctionDef override: generic_visit only.
    quality_visit_list fn lines body
  | .classDef nm body l =>
    class_def_checks fn lines nm body l ++ quality_visit_list fn lines body
  | .name id l =>
    if id.length = 1 && !(id ∈ single_letter_allowed) then
      [create_finding fn l
        ("Single-letter variable name '" ++ id ++ "' - use descriptive names")
        IssueCategory.codeQuality (get_line_content lines l)
        (some (get_code_context lines l))]
    else []
  | .module body => quality_visit_list fn lines body
  | .forS t i b o _ =>
    quality_visit fn lines t ++ quality_visit fn lines i ++
    quality_visit_list fn lines b ++ quality_visit_list fn lines o
  | .whileS t b o _ =>
    quality_visit fn lines t ++ quality_visit_list fn lines b ++
    quality_visit_list fn lines o
  | .ifS t b o _ =>
    quality_visit fn lines t ++ quality_visit_list fn lines b ++
    quality_visit_list fn lines o
  | .tryS b h o f _ =>
    quality_visit_list fn lines b ++ quality_visit_list fn lines h ++
    quality_visit_list fn lines o ++ quality_visit_list fn lines f
  | .exceptHandler b _ => quality_visit_list fn lines b
  | .assign ts v _ =>
    quality_visit_list fn lines ts ++ quality_visit fn lines v
  | .exprS v _ => quality_visit fn lines v
  | .ret v _ => quality_visit_list fn lines v
  | .call f a k _ =>
    quality_visit fn lines f ++ quality_visit_list fn lines a ++
    quality_visit_list fn lines k
  | .keywordArg _ v => quality_visit fn lines v
  | .Attribute v _ _ => quality_visit fn lines v
  | .constant _ _ => []
  | .boolOp vs _ => quality_visit_list fn lines vs
  | .listComp e g _ =>
    quality_visit fn lines e ++ quality_visit_list fn lines g
  | .comprehension t i ifs =>
    quality_visit fn lines t ++ quality_visit fn lines i ++
    quality_visit_list fn lines ifs
  | .awaitE v _ => quality_visit fn lines v

def quality_visit_list (fn : String) (lines : List String) :
    List PyNode → List Finding
  | [] => []
  | h :: t => quality_visit fn lines h ++ quality_visit_list fn lines t
end

/-- `CodeQualityAnalyzer.analyze`. -/
def CodeQualityAnalyzer_analyze (filename code : String) (tree : Option PyNode) :
    List Finding :=
  let lines := split_lines code
  match tree with
  | some t => quality_visit filename lines t
  | none => []

/-! ## The batch entry point (`analyzer/__init__.py`)

A `PyFile` is one entry of the `{path: text}` mapping together with the result
of `ast.parse` on its text (`none` when the text is syntactically invalid —
`parse_ast_safely` turns the `SyntaxError` into `None`).  `analyze_code`
iterates the mapping in order and concatenates Security, Performance and
CodeQuality findings per file. -/

structure PyFile where
  name : String
  code : String
  tree : Option PyNode

/-- Well-formed batch entry: when the text parses, every `lineno` in the tree
is between 1 and the number of lines of the text (guaranteed by `ast.parse`). -/
def PyFile.wf (f : PyFile) : Bool :=
  match f.tree with
  | some t => wf_node (split_lines f.code).length t
  | none => true

/-- The three per-file analyzer runs of `analyze_code`, in source order. -/
def analyze_file (f : PyFile) : List Finding :=
  SecurityAnalyzer_analyze f.name f.code f.tree ++
  PerformanceAnalyzer_analyze f.name f.code f.tree ++
  CodeQualityAnalyzer_analyze f.name f.code f.tree

/-- `analyze_code` from `backend/analyzer/__init__.py`. -/
def analyze_code (files : List PyFile) : List Finding :=
  files.flatMap analyze_file

/-! ## The per-finding invariant

Every detector in all three rule sets and both text checks constructs its
`Finding` with the file name it was given, the 1-based line of the triggering
construct, and `context = get_code_context(lines, line)`.  `good_finding`
packages the invariant behind claims C4 and C10. -/

def good_finding (fn : String) (lines : List String) (f : Finding) : Prop :=
  f.file = fn ∧ 1 ≤ f.line ∧ f.line ≤ lines.length ∧
    f.context = some (get_code_context lines f.line)

theorem good_finding_create (fn : String) (lines : List String)
    (l : Nat) (issue : String) (cat : IssueCategory) (snip : String)
    (h1 : 1 ≤ l) (h2 : l ≤ lines.length) :
    good_finding fn lines
      (create_finding fn l issue cat snip (some (get_code_context lines l))) :=
  ⟨rfl, h1, h2, rfl⟩

theorem wf_node_list_append (len : Nat) (a b : List PyNode) :
    wf_node_list len (a ++ b) = (wf_node_list len a && wf_node_list len b) := by
  induction a with
  | nil => simp [wf_node_list]
  | cons h t ih => simp [wf_node_list, ih, Bool.and_assoc]

/-- Children of a well-formed node are well-formed. -/
theorem wf_node_children (len : Nat) (n : PyNode)
    (h : wf_node len n = true) : wf_node_list len (node_children n) = true := by
  cases n <;>
    simp only [wf_node, Bool.and_eq_true] at h <;>
    simp_all [node_children, wf_node_list, wf_node_list_append, wf_node,
      Bool.and_eq_true]

/-! ### Text-pattern findings are good -/

theorem line_of_offset_ge_one (code : String) (s : Nat) :
    1 ≤ line_of_offset code s := by
  simp [line_of_offset]

theorem line_of_offset_le (code : String) (s : Nat) :
    line_of_offset code s ≤ (split_lines code).length := by
  unfold line_of_offset
  rw [split_lines_length]
  have : (code.data.take s).count '\n' ≤ code.data.count '\n' :=
    (code.data.take_sublist s).count_le '\n'
  omega

theorem check_hardcoded_secrets_good (fn code : String) :
    ∀ f ∈ check_hardcoded_secrets fn code (split_lines code),
      good_finding fn (split_lines code) f := by
  intro f hf
  simp only [check_hardcoded_secrets, List.mem_flatMap, List.mem_map] at hf
  obtain ⟨pm, _, se, _, hcreate⟩ := hf
  subst hcreate
  exact good_finding_create _ _ _ _ _ _ (line_of_offset_ge_one code se.1)
    (line_of_offset_le code se.1)

theorem check_sql_injection_good (fn code : String) :
    ∀ f ∈ check_sql_injection fn code (split_lines code),
      good_finding fn (split_lines code) f := by
  intro f hf
  simp only [check_sql_injection, List.mem_map] at hf
  obtain ⟨se, _, hcreate⟩ := hf
  subst hcreate
  exact good_finding_create _ _ _ _ _ _ (line_of_offset_ge_one code se.1)
    (line_of_offset_le code se.1)

/-! ### Tree-based security findings are good -/

theorem check_dangerous_eval_exec_good (fn : String) (lines : List String)
    (func : PyNode) (l : Nat) (h1 : 1 ≤ l) (h2 : l ≤ lines.length) :
    ∀ f ∈ check_dangerous_eval_exec fn lines func l, good_finding fn lines f := by
  intro f hf
  unfold check_dangerous_eval_exec at hf
  cases func <;> simp at hf
  case name id _ =>
    rcases hf with ⟨_, hf⟩
    subst hf
    exact good_finding_create _ _ _ _ _ _ h1 h2

theorem check_pickle_loads_good (fn : String) (lines : List String)
    (func : PyNode) (l : Nat) (h1 : 1 ≤ l) (h2 : l ≤ lines.length) :
    ∀ f ∈ check_pickle_loads fn lines func l, good_finding fn lines f := by
  intro f hf
  unfold check_pickle_loads at hf
  split at hf <;> simp at hf <;>
    (subst hf; exact good_finding_create _ _ _ _ _ _ h1 h2)

theorem check_unsafe_system_calls_good (fn : String) (lines : List String)
    (func : PyNode) (kws : List PyNode) (l : Nat)
    (h1 : 1 ≤ l) (h2 : l ≤ lines.length) :
    ∀ f ∈ check_unsafe_system_calls fn lines func kws l,
      good_finding fn lines f := by
  intro f hf
  unfold check_unsafe_system_calls at hf
  split at hf
  · split at hf
    · split at hf <;> simp at hf <;>
        (subst hf; exact good_finding_create _ _ _ _ _ _ h1 h2)
    · split at hf
      · simp only [List.mem_flatMap] at hf
        obtain ⟨kw, _, hkw⟩ := hf
        split at hkw <;> simp at hkw <;>
          (subst hkw; exact good_finding_create _ _ _ _ _ _ h1 h2)
      · simp at hf
  · simp at hf

/-! ### Visitor findings are good (mutual inductions over `PyNode`) -/

theorem forall_mem_append {P : Finding → Prop} {a b : List Finding}
    (ha : ∀ x ∈ a, P x) (hb : ∀ x ∈ b, P x) : ∀ x ∈ a ++ b, P x := by
  intro x hx
  rcases List.mem_append.1 hx with h | h
  exacts [ha x h, hb x h]

mutual
theorem security_visit_good (fn : String) (lines : List String) :
    ∀ (n : PyNode), wf_node lines.length n = true →
      ∀ f ∈ security_visit fn lines n, good_finding fn lines f
  | .call fc a k l, hw => by
    simp only [wf_node, Bool.and_eq_true, decide_eq_true_eq] at hw
    obtain ⟨⟨⟨⟨h1, h2⟩, hwf⟩, hwa⟩, hwk⟩ := hw
    simp only [security_visit]
    exact forall_mem_append (forall_mem_append (forall_mem_append
      (forall_mem_append (forall_mem_append
        (check_dangerous_eval_exec_good fn lines fc l h1 h2)
        (check_pickle_loads_good fn lines fc l h1 h2))
        (check_unsafe_system_calls_good fn lines fc k l h1 h2))
        (security_visit_good fn lines fc hwf))
        (security_visit_list_good fn lines a hwa))
        (security_visit_list_good fn lines k hwk)
  | .module body, hw => by
    simp only [wf_node, Bool.and_eq_true, decide_eq_true_eq] at hw
    simp only [security_visit]
    exact (security_visit_list_good fn lines body hw)
  | .functionDef nm an body l e, hw => by
    simp only [wf_node, Bool.and_eq_true, decide_eq_true_eq] at hw
    obtain ⟨⟨h1, h2⟩, hwbody⟩ := hw
    simp only [security_visit]
    exact (security_visit_list_good fn lines body hwbody)
  | .asyncFunctionDef nm an body l e, hw => by
    simp only [wf_node, Bool.and_eq_true, decide_eq_true_eq] at hw
    obtain ⟨⟨h1, h2⟩, hwbody⟩ := hw
    simp only [security_visit]
    exact (security_visit_list_good fn lines body hwbody)
  | .classDef nm body l, hw => by
    simp only [wf_node, Bool.and_eq_true, decide_eq_true_eq] at hw
    obtain ⟨⟨h1, h2⟩, hwbody⟩ := hw
    simp only [security_visit]
    exact (security_visit_list_good fn lines body hwbody)
  | .forS t i b o l, hw => by
    simp only [wf_node, Bool.and_eq_true, decide_eq_true_eq] at hw
    obtain ⟨⟨⟨⟨⟨h1, h2⟩, hwt⟩, hwi⟩, hwb⟩, hwo⟩ := hw
    simp only [security_visit]
    exact (forall_mem_append (forall_mem_append (forall_mem_append (security_visit_good fn lines t hwt) (security_visit_good fn lines i hwi)) (security_visit_list_good fn lines b hwb)) (security_visit_list_good fn lines o hwo))
  | .whileS t b o l, hw => by
    simp only [wf_node, Bool.and_eq_true, decide_eq_true_eq] at hw
    obtain ⟨⟨⟨⟨h1, h2⟩, hwt⟩, hwb⟩, hwo⟩ := hw
    simp only [security_visit]
    exact (forall_mem_append (forall_mem_append (security_visit_good fn lines t hwt) (security_visit_list_good fn lines b hwb)) (security_visit_list_good fn lines o hwo))
  | .ifS t b o l, hw => by
    simp only [wf_node, Bool.and_eq_true, decide_eq_true_eq] at hw
    obtain ⟨⟨⟨⟨h1, h2⟩, hwt⟩, hwb⟩, hwo⟩ := hw
    simp only [security_visit]
    exact (forall_mem_append (forall_mem_append (security_visit_good fn lines t hwt) (security_visit_list_good fn lines b hwb)) (security_visit_list_good fn lines o hwo))
  | .tryS b h o fb l, hw => by
    simp only [wf_node, Bool.and_eq_true, decide_eq_true_eq] at hw
    obtain ⟨⟨⟨⟨⟨h1, h2⟩, hwb⟩, hwh⟩, hwo⟩, hwfb⟩ := hw
    simp only [security_visit]
    exact (forall_mem_append (forall_mem_append (forall_mem_append (security_visit_list_good fn lines b hwb) (security_visit_list_good fn lines h hwh)) (security_visit_list_good fn lines o hwo)) (security_visit_list_good fn lines fb hwfb))
  | .exceptHandler b l, hw => by
    simp only [wf_node, Bool.and_eq_true, decide_eq_true_eq] at hw
    obtain ⟨⟨h1, h2⟩, hwb⟩ := hw
    simp only [security_visit]
    exact (security_visit_list_good fn lines b hwb)
  | .assign ts v l, hw => by
    simp only [wf_node, Bool.and_eq_true, decide_eq_true_eq] at hw
    obtain ⟨⟨⟨h1, h2⟩, hwts⟩, hwv⟩ := hw
    simp only [security_visit]
    exact (forall_mem_append (security_visit_list_good fn lines ts hwts) (security_visit_good fn lines v hwv))
  | .exprS v l, hw => by
    simp only [wf_node, Bool.and_eq_true, decide_eq_true_eq] at hw
    obtain ⟨⟨h1, h2⟩, hwv⟩ := hw
    simp only [security_visit]
    exact (security_visit_good fn lines v hwv)
  | .ret v l, hw => by
    simp only [wf_node, Bool.and_eq_true, decide_eq_true_eq] at hw
    obtain ⟨⟨h1, h2⟩, hwv⟩ := hw
    simp only [security_visit]
    exact (security_visit_list_good fn lines v hwv)
  | .keywordArg a v, hw => by
    simp only [wf_node, Bool.and_eq_true, decide_eq_true_eq] at hw
    simp only [security_visit]
    exact (security_visit_good fn lines v hw)
  | .Attribute v atr l, hw => by
    simp only [wf_node, Bool.and_eq_true, decide_eq_true_eq] at hw
    obtain ⟨⟨h1, h2⟩, hwv⟩ := hw
    simp only [security_visit]
    exact (security_visit_good fn lines v hwv)
  | .name id l, hw => by
    simp only [wf_node, Bool.and_eq_true, decide_eq_true_eq] at hw
    obtain ⟨h1, h2⟩ := hw
    simp only [security_visit]
    simp
  | .constant c l, hw => by
    simp only [wf_node, Bool.and_eq_true, decide_eq_true_eq] at hw
    obtain ⟨h1, h2⟩ := hw
    simp only [security_visit]
    simp
  | .boolOp vs l, hw => by
    simp only [wf_node, Bool.and_eq_true, decide_eq_true_eq] at hw
    obtain ⟨⟨h1, h2⟩, hwvs⟩ := hw
    simp only [security_visit]
    exact (security_visit_list_good fn lines vs hwvs)
  | .listComp e g l, hw => by
    simp only [wf_node, Bool.and_eq_true, decide_eq_true_eq] at hw
    obtain ⟨⟨⟨h1, h2⟩, hwe⟩, hwg⟩ := hw
    simp only [security_visit]
    exact (forall_mem_append (security_visit_good fn lines e hwe) (security_visit_list_good fn lines g hwg))
  | .comprehension t i ifs, hw => by
    simp only [wf_node, Bool.and_eq_true, decide_eq_true_eq] at hw
    obtain ⟨⟨hwt, hwi⟩, hwifs⟩ := hw
    simp only [security_visit]
    exact (forall_mem_append (forall_mem_append (security_visit_good fn lines t hwt) (security_visit_good fn lines i hwi)) (security_visit_list_good fn lines ifs hwifs))
  | .awaitE v l, hw => by
    simp only [wf_node, Bool.and_eq_true, decide_eq_true_eq] at hw
    obtain ⟨⟨h1, h2⟩, hwv⟩ := hw
    simp only [security_visit]
    exact (security_visit_good fn lines v hwv)
theorem security_visit_list_good (fn : String) (lines : List String) :
    ∀ (l : List PyNode), wf_node_list lines.length l = true →
      ∀ f ∈ security_visit_list fn lines l, good_finding fn lines f
  | [], _ => by simp [security_visit_list]
  | h :: t, hw => by
    simp only [wf_node_list, Bool.and_eq_true] at hw
    simp only [security_visit_list]
    exact forall_mem_append (security_visit_good fn lines h hw.1)
      (security_visit_list_good fn lines t hw.2)
end

theorem blocking_call_check_good (fn : String) (lines : List String)
    (func : PyNode) (l : Nat) (h1 : 1 ≤ l) (h2 : l ≤ lines.length) :
    ∀ f ∈ blocking_call_check fn lines func l, good_finding fn lines f := by
  intro f hf
  unfold blocking_call_check at hf
  split at hf
  · split at hf
    · split at hf <;> simp at hf <;>
        (subst hf; exact good_finding_create _ _ _ _ _ _ h1 h2)
    · simp at hf
  · split at hf <;> simp at hf <;>
      (subst hf; exact good_finding_create _ _ _ _ _ _ h1 h2)
  · simp at hf

theorem walk_append_go_good (fn : String) (lines : List String) :
    ∀ (fuel : Nat) (q : List PyNode), wf_node_list lines.length q = true →
      ∀ f ∈ walk_append_go fn lines fuel q, good_finding fn lines f := by
  intro fuel
  induction fuel with
  | zero => intro q _ f hf; simp [walk_append_go] at hf
  | succ fuel ih =>
    intro q hq f hf
    match q with
    | [] => simp [walk_append_go] at hf
    | h :: t =>
      simp only [wf_node_list, Bool.and_eq_true] at hq
      simp only [walk_append_go, List.mem_append] at hf
      rcases hf with hf | hf
      · -- the emission for the head node
        split at hf <;> simp at hf
        case _ =>
          subst hf
          -- line bounds for the matched call node from its well-formedness
          have hwcall := hq.1
          simp only [wf_node, Bool.and_eq_true, decide_eq_true_eq] at hwcall
          obtain ⟨⟨⟨⟨hb1, hb2⟩, _⟩, _⟩, _⟩ := hwcall
          unfold append_finding
          exact good_finding_create _ _ _ _ _ _ hb1 hb2
      · refine ih (t ++ node_children h) ?_ f hf
        rw [wf_node_list_append]
        simp [hq.2, wf_node_children lines.length h hq.1]

theorem walk_append_good (fn : String) (lines : List String) (n : PyNode)
    (hw : wf_node lines.length n = true) :
    ∀ f ∈ walk_append fn lines n, good_finding fn lines f := by
  unfold walk_append
  exact walk_append_go_good fn lines (node_size n) [n] (by simp [wf_node_list, hw])

theorem forall_mem_singleton {P : Finding → Prop} {x : Finding} (hx : P x) :
    ∀ y ∈ [x], P y := by
  intro y hy
  simp at hy
  subst hy
  exact hx

theorem forall_mem_if {c : Prop} [Decidable c] {P : Finding → Prop}
    {a : List Finding} (ha : ∀ x ∈ a, P x) :
    ∀ x ∈ (if c then a else []), P x := by
  split
  · exact ha
  · simp

theorem deep_for_finding_good (fn : String) (lines : List String) (d l : Nat)
    (h1 : 1 ≤ l) (h2 : l ≤ lines.length) :
    good_finding fn lines (deep_for_finding fn lines d l) := by
  unfold deep_for_finding
  exact good_finding_create _ _ _ _ _ _ h1 h2

theorem deep_while_finding_good (fn : String) (lines : List String) (d l : Nat)
    (h1 : 1 ≤ l) (h2 : l ≤ lines.length) :
    good_finding fn lines (deep_while_finding fn lines d l) := by
  unfold deep_while_finding
  exact good_finding_create _ _ _ _ _ _ h1 h2

theorem nested_comp_emit_good (fn : String) (lines : List String)
    (g : List PyNode) (l : Nat) (h1 : 1 ≤ l) (h2 : l ≤ lines.length) :
    ∀ f ∈ (g.flatMap fun gen =>
      match gen with
      | .comprehension _ (.listComp _ _ _) _ =>
        [create_finding fn l
          "Nested list comprehension detected - consider breaking into separate steps for readability"
          IssueCategory.performance (get_line_content lines l)
          (some (get_code_context lines l))]
      | _ => []), good_finding fn lines f := by
  intro f hf
  simp only [List.mem_flatMap] at hf
  obtain ⟨gen, _, hgen⟩ := hf
  split at hgen <;> simp at hgen
  subst hgen
  exact good_finding_create _ _ _ _ _ _ h1 h2
mutual
theorem performance_visit_good (fn : String) (lines : List String) :
    ∀ (n : PyNode) (depth : Nat) (inAsync : Bool),
      wf_node lines.length n = true →
      ∀ f ∈ performance_visit fn lines depth inAsync n, good_finding fn lines f
  | .forS t i b o l, depth, inAsync, hw => by
    have hwhole := hw
    simp only [wf_node, Bool.and_eq_true, decide_eq_true_eq] at hw
    obtain ⟨⟨⟨⟨⟨h1, h2⟩, hwt⟩, hwi⟩, hwb⟩, hwo⟩ := hw
    simp only [performance_visit]
    exact forall_mem_append (forall_mem_append (forall_mem_append
      (forall_mem_append (forall_mem_append
        (forall_mem_if (forall_mem_singleton (deep_for_finding_good fn lines (depth + 1) l h1 h2)))
        (forall_mem_if (walk_append_good fn lines (.forS t i b o l) hwhole)))
        (performance_visit_good fn lines t (depth + 1) inAsync hwt))
        (performance_visit_good fn lines i (depth + 1) inAsync hwi))
        (performance_visit_list_good fn lines b (depth + 1) inAsync hwb))
        (performance_visit_list_good fn lines o (depth + 1) inAsync hwo)
  | .whileS t b o l, depth, inAsync, hw => by
    simp only [wf_node, Bool.and_eq_true, decide_eq_true_eq] at hw
    obtain ⟨⟨⟨⟨h1, h2⟩, hwt⟩, hwb⟩, hwo⟩ := hw
    simp only [performance_visit]
    exact forall_mem_append (forall_mem_append (forall_mem_append
      (forall_mem_if (forall_mem_singleton (deep_while_finding_good fn lines (depth + 1) l h1 h2)))
      (performance_visit_good fn lines t (depth + 1) inAsync hwt))
      (performance_visit_list_good fn lines b (depth + 1) inAsync hwb))
      (performance_visit_list_good fn lines o (depth + 1) inAsync hwo)
  | .asyncFunctionDef nm an body l e, depth, inAsync, hw => by
    simp only [wf_node, Bool.and_eq_true, decide_eq_true_eq] at hw
    obtain ⟨⟨h1, h2⟩, hwbody⟩ := hw
    simp only [performance_visit]
    exact performance_visit_list_good fn lines body depth true hwbody
  | .call fc a k l, depth, inAsync, hw => by
    simp only [wf_node, Bool.and_eq_true, decide_eq_true_eq] at hw
    obtain ⟨⟨⟨⟨h1, h2⟩, hwf⟩, hwa⟩, hwk⟩ := hw
    simp only [performance_visit]
    exact forall_mem_append (forall_mem_append (forall_mem_append
      (forall_mem_if (blocking_call_check_good fn lines fc l h1 h2))
      (performance_visit_good fn lines fc depth inAsync hwf))
      (performance_visit_list_good fn lines a depth inAsync hwa))
      (performance_visit_list_good fn lines k depth inAsync hwk)
  | .listComp e g l, depth, inAsync, hw => by
    simp only [wf_node, Bool.and_eq_true, decide_eq_true_eq] at hw
    obtain ⟨⟨⟨h1, h2⟩, hwe⟩, hwg⟩ := hw
    simp only [performance_visit]
    exact forall_mem_append (forall_mem_append
      (nested_comp_emit_good fn lines g l h1 h2)
      (performance_visit_good fn lines e depth inAsync hwe))
      (performance_visit_list_good fn lines g depth inAsync hwg)
  | .module body, depth, inAsync, hw => by
    simp only [wf_node, Bool.and_eq_true, decide_eq_true_eq] at hw
    simp only [performance_visit]
    exact (performance_visit_list_good fn lines body depth inAsync hw)
  | .functionDef nm an body l e, depth, inAsync, hw => by
    simp only [wf_node, Bool.and_eq_true, decide_eq_true_eq] at hw
    obtain ⟨⟨h1, h2⟩, hwbody⟩ := hw
    simp only [performance_visit]
    exact (performance_visit_list_good fn lines body depth inAsync hwbody)
  | .classDef nm body l, depth, inAsync, hw => by
    simp only [wf_node, Bool.and_eq_true, decide_eq_true_eq] at hw
    obtain ⟨⟨h1, h2⟩, hwbody⟩ := hw
    simp only [performance_visit]
    exact (performance_visit_list_good fn lines body depth inAsync hwbody)
  | .ifS t b o l, depth, inAsync, hw => by
    simp only [wf_node, Bool.and_eq_true, decide_eq_true_eq] at hw
    obtain ⟨⟨⟨⟨h1, h2⟩, hwt⟩, hwb⟩, hwo⟩ := hw
    simp only [performance_visit]
    exact (forall_mem_append (forall_mem_append (performance_visit_good fn lines t depth inAsync hwt) (performance_visit_list_good fn lines b depth inAsync hwb)) (performance_visit_list_good fn lines o depth inAsync hwo))
  | .tryS b h o fb l, depth, inAsync, hw => by
    simp only [wf_node, Bool.and_eq_true, decide_eq_true_eq] at hw
    obtain ⟨⟨⟨⟨⟨h1, h2⟩, hwb⟩, hwh⟩, hwo⟩, hwfb⟩ := hw
    simp only [performance_visit]
    exact (forall_mem_append (forall_mem_append (forall_mem_append (performance_visit_list_good fn lines b depth inAsync hwb) (performance_visit_list_good fn lines h depth inAsync hwh)) (performance_visit_list_good fn lines o depth inAsync hwo)) (performance_visit_list_good fn lines fb depth inAsync hwfb))
  | .exceptHandler b l, depth, inAsync, hw => by
    simp only [wf_node, Bool.and_eq_true, decide_eq_true_eq] at hw
    obtain ⟨⟨h1, h2⟩, hwb⟩ := hw
    simp only [performance_visit]
    exact (performance_visit_list_good fn lines b depth inAsync hwb)
  | .assign ts v l, depth, inAsync, hw => by
    simp only [wf_node, Bool.and_eq_true, decide_eq_true_eq] at hw
    obtain ⟨⟨⟨h1, h2⟩, hwts⟩, hwv⟩ := hw
    simp only [performance_visit]
    exact (forall_mem_append (performance_visit_list_good fn lines ts depth inAsync hwts) (performance_visit_good fn lines v depth inAsync hwv))
  | .exprS v l, depth, inAsync, hw => by
    simp only [wf_node, Bool.and_eq_true, decide_eq_true_eq] at hw
    obtain ⟨⟨h1, h2⟩, hwv⟩ := hw
    simp only [performance_visit]
    exact (performance_visit_good fn lines v depth inAsync hwv)
  | .ret v l, depth, inAsync, hw => by
    simp only [wf_node, Bool.and_eq_true, decide_eq_true_eq] at hw
    obtain ⟨⟨h1, h2⟩, hwv⟩ := hw
    simp only [performance_visit]
    exact (performance_visit_list_good fn lines v depth inAsync hwv)
  | .keywordArg a v, depth, inAsync, hw => by
    simp only [wf_node, Bool.and_eq_true, decide_eq_true_eq] at hw
    simp only [performance_visit]
    exact (performance_visit_good fn lines v depth inAsync hw)
  | .Attribute v atr l, depth, inAsync, hw => by
    simp only [wf_node, Bool.and_eq_true, decide_eq_true_eq] at hw
    obtain ⟨⟨h1, h2⟩, hwv⟩ := hw
    simp only [performance_visit]
    exact (performance_visit_good fn lines v depth inAsync hwv)
  | .name id l, depth, inAsync, hw => by
    simp only [wf_node, Bool.and_eq_true, decide_eq_true_eq] at hw
    obtain ⟨h1, h2⟩ := hw
    simp only [performance_visit]
    simp
  | .constant c l, depth, inAsync, hw => by
    simp only [wf_node, Bool.and_eq_true, decide_eq_true_eq] at hw
    obtain ⟨h1, h2⟩ := hw
    simp only [performance_visit]
    simp
  | .boolOp vs l, depth, inAsync, hw => by
    simp only [wf_node, Bool.and_eq_true, decide_eq_true_eq] at hw
    obtain ⟨⟨h1, h2⟩, hwvs⟩ := hw
    simp only [performance_visit]
    exact (performance_visit_list_good fn lines vs depth inAsync hwvs)
  | .comprehension t i ifs, depth, inAsync, hw => by
    simp only [wf_node, Bool.and_eq_true, decide_eq_true_eq] at hw
    obtain ⟨⟨hwt, hwi⟩, hwifs⟩ := hw
    simp only [performance_visit]
    exact (forall_mem_append (forall_mem_append (performance_visit_good fn lines t depth inAsync hwt) (performance_visit_good fn lines i depth inAsync hwi)) (performance_visit_list_good fn lines ifs depth inAsync hwifs))
  | .awaitE v l, depth, inAsync, hw => by
    simp only [wf_node, Bool.and_eq_true, decide_eq_true_eq] at hw
    obtain ⟨⟨h1, h2⟩, hwv⟩ := hw
    simp only [performance_visit]
    exact (performance_visit_good fn lines v depth inAsync hwv)
theorem performance_visit_list_good (fn : String) (lines : List String) :
    ∀ (l : List PyNode) (depth : Nat) (inAsync : Bool),
      wf_node_list lines.length l = true →
      ∀ f ∈ performance_visit_list fn lines depth inAsync l, good_finding fn lines f
  | [], _, _, _ => by simp [performance_visit_list]
  | h :: t, depth, inAsync, hw => by
    simp only [wf_node_list, Bool.and_eq_true] at hw
    simp only [performance_visit_list]
    exact forall_mem_append (performance_visit_good fn lines h depth inAsync hw.1)
      (performance_visit_list_good fn lines t depth inAsync hw.2)
end

theorem function_def_checks_good (fn : String) (lines : List String)
    (nm : String) (an : List String) (body : List PyNode) (l e : Nat)
    (h1 : 1 ≤ l) (h2 : l ≤ lines.length) :
    ∀ f ∈ function_def_checks fn lines nm an body l e, good_finding fn lines f := by
  unfold function_def_checks
  exact forall_mem_append (forall_mem_append (forall_mem_append
    (forall_mem_if (forall_mem_singleton (good_finding_create _ _ _ _ _ _ h1 h2)))
    (forall_mem_if (forall_mem_singleton (good_finding_create _ _ _ _ _ _ h1 h2))))
    (forall_mem_if (forall_mem_singleton (good_finding_create _ _ _ _ _ _ h1 h2))))
    (forall_mem_if (forall_mem_singleton (good_finding_create _ _ _ _ _ _ h1 h2)))

theorem class_def_checks_good (fn : String) (lines : List String)
    (nm : String) (body : List PyNode) (l : Nat)
    (h1 : 1 ≤ l) (h2 : l ≤ lines.length) :
    ∀ f ∈ class_def_checks fn lines nm body l, good_finding fn lines f := by
  unfold class_def_checks
  exact forall_mem_append
    (forall_mem_if (forall_mem_singleton (good_finding_create _ _ _ _ _ _ h1 h2)))
    (forall_mem_if (forall_mem_singleton (good_finding_create _ _ _ _ _ _ h1 h2)))
mutual
theorem quality_visit_good (fn : String) (lines : List String) :
    ∀ (n : PyNode), wf_node lines.length n = true →
      ∀ f ∈ quality_visit fn lines n, good_finding fn lines f
  | .functionDef nm an body l e, hw => by
    simp only [wf_node, Bool.and_eq_true, decide_eq_true_eq] at hw
    obtain ⟨⟨h1, h2⟩, hwbody⟩ := hw
    simp only [quality_visit]
    exact forall_mem_append
      (function_def_checks_good fn lines nm an body l e h1 h2)
      (quality_visit_list_good fn lines body hwbody)
  | .classDef nm body l, hw => by
    simp only [wf_node, Bool.and_eq_true, decide_eq_true_eq] at hw
    obtain ⟨⟨h1, h2⟩, hwbody⟩ := hw
    simp only [quality_visit]
    exact forall_mem_append
      (class_def_checks_good fn lines nm body l h1 h2)
      (quality_visit_list_good fn lines body hwbody)
  | .name id l, hw => by
    simp only [wf_node, Bool.and_eq_true, decide_eq_true_eq] at hw
    obtain ⟨h1, h2⟩ := hw
    simp only [quality_visit]
    exact forall_mem_if (forall_mem_singleton (good_finding_create _ _ _ _ _ _ h1 h2))
  | .module body, hw => by
    simp only [wf_node, Bool.and_eq_true, decide_eq_true_eq] at hw
    simp only [quality_visit]
    exact (quality_visit_list_good fn lines body hw)
  | .asyncFunctionDef nm an body l e, hw => by
    simp only [wf_node, Bool.and_eq_true, decide_eq_true_eq] at hw
    obtain ⟨⟨h1, h2⟩, hwbody⟩ := hw
    simp only [quality_visit]
    exact (quality_visit_list_good fn lines body hwbody)
  | .forS t i b o l, hw => by
    simp only [wf_node, Bool.and_eq_true, decide_eq_true_eq] at hw
    obtain ⟨⟨⟨⟨⟨h1, h2⟩, hwt⟩, hwi⟩, hwb⟩, hwo⟩ := hw
    simp only [quality_visit]
    exact (forall_mem_append (forall_mem_append (forall_mem_append (quality_visit_good fn lines t hwt) (quality_visit_good fn lines i hwi)) (quality_visit_list_good fn lines b hwb)) (quality_visit_list_good fn lines o hwo))
  | .whileS t b o l, hw => by
    simp only [wf_node, Bool.and_eq_true, decide_eq_true_eq] at hw
    obtain ⟨⟨⟨⟨h1, h2⟩, hwt⟩, hwb⟩, hwo⟩ := hw
    simp only [quality_visit]
    exact (forall_mem_append (forall_mem_append (quality_visit_good fn lines t hwt) (quality_visit_list_good fn lines b hwb)) (quality_visit_list_good fn lines o hwo))
  | .ifS t b o l, hw => by
    simp only [wf_node, Bool.and_eq_true, decide_eq_true_eq] at hw
    obtain ⟨⟨⟨⟨h1, h2⟩, hwt⟩, hwb⟩, hwo⟩ := hw
    simp only [quality_visit]
    exact (forall_mem_append (forall_mem_append (quality_visit_good fn lines t hwt) (quality_visit_list_good fn lines b hwb)) (quality_visit_list_good fn lines o hwo))
  | .tryS b h o fb l, hw => by
    simp only [wf_node, Bool.and_eq_true, decide_eq_true_eq] at hw
    obtain ⟨⟨⟨⟨⟨h1, h2⟩, hwb⟩, hwh⟩, hwo⟩, hwfb⟩ := hw
    simp only [quality_visit]
    exact (forall_mem_append (forall_mem_append (forall_mem_append (quality_visit_list_good fn lines b hwb) (quality_visit_list_good fn lines h hwh)) (quality_visit_list_good fn lines o hwo)) (quality_visit_list_good fn lines fb hwfb))
  | .exceptHandler b l, hw => by
    simp only [wf_node, Bool.and_eq_true, decide_eq_true_eq] at hw
    obtain ⟨⟨h1, h2⟩, hwb⟩ := hw
    simp only [quality_visit]
    exact (quality_visit_list_good fn lines b hwb)
  | .assign ts v l, hw => by
    simp only [wf_node, Bool.and_eq_true, decide_eq_true_eq] at hw
    obtain ⟨⟨⟨h1, h2⟩, hwts⟩, hwv⟩ := hw
    simp only [quality_visit]
    exact (forall_mem_append (quality_visit_list_good fn lines ts hwts) (quality_visit_good fn lines v hwv))
  | .exprS v l, hw => by
    simp only [wf_node, Bool.and_eq_true, decide_eq_true_eq] at hw
    obtain ⟨⟨h1, h2⟩, hwv⟩ := hw
    simp only [quality_visit]
    exact (quality_visit_good fn lines v hwv)
  | .ret v l, hw => by
    simp only [wf_node, Bool.and_eq_true, decide_eq_true_eq] at hw
    obtain ⟨⟨h1, h2⟩, hwv⟩ := hw
    simp only [quality_visit]
    exact (quality_visit_list_good fn lines v hwv)
  | .call fc a k l, hw => by
    simp only [wf_node, Bool.and_eq_true, decide_eq_true_eq] at hw
    obtain ⟨⟨⟨⟨h1, h2⟩, hwfc⟩, hwa⟩, hwk⟩ := hw
    simp only [quality_visit]
    exact (forall_mem_append (forall_mem_append (quality_visit_good fn lines fc hwfc) (quality_visit_list_good fn lines a hwa)) (quality_visit_list_good fn lines k hwk))
  | .keywordArg a v, hw => by
    simp only [wf_node, Bool.and_eq_true, decide_eq_true_eq] at hw
    simp only [quality_visit]
    exact (quality_visit_good fn lines v hw)
  | .Attribute v atr l, hw => by
    simp only [wf_node, Bool.and_eq_true, decide_eq_true_eq] at hw
    obtain ⟨⟨h1, h2⟩, hwv⟩ := hw
    simp only [quality_visit]
    exact (quality_visit_good fn lines v hwv)
  | .constant c l, hw => by
    simp only [wf_node, Bool.and_eq_true, decide_eq_true_eq] at hw
    obtain ⟨h1, h2⟩ := hw
    simp only [quality_visit]
    simp
  | .boolOp vs l, hw => by
    simp only [wf_node, Bool.and_eq_true, decide_eq_true_eq] at hw
    obtain ⟨⟨h1, h2⟩, hwvs⟩ := hw
    simp only [quality_visit]
    exact (quality_visit_list_good fn lines vs hwvs)
  | .listComp e g l, hw => by
    simp only [wf_node, Bool.and_eq_true, decide_eq_true_eq] at hw
    obtain ⟨⟨⟨h1, h2⟩, hwe⟩, hwg⟩ := hw
    simp only [quality_visit]
    exact (forall_mem_append (quality_visit_good fn lines e hwe) (quality_visit_list_good fn lines g hwg))
  | .comprehension t i ifs, hw => by
    simp only [wf_node, Bool.and_eq_true, decide_eq_true_eq] at hw
    obtain ⟨⟨hwt, hwi⟩, hwifs⟩ := hw
    simp only [quality_visit]
    exact (forall_mem_append (forall_mem_append (quality_visit_good fn lines t hwt) (quality_visit_good fn lines i hwi)) (quality_visit_list_good fn lines ifs hwifs))
  | .awaitE v l, hw => by
    simp only [wf_node, Bool.and_eq_true, decide_eq_true_eq] at hw
    obtain ⟨⟨h1, h2⟩, hwv⟩ := hw
    simp only [quality_visit]
    exact (quality_visit_good fn lines v hwv)
theorem quality_visit_list_good (fn : String) (lines : List String) :
    ∀ (l : List PyNode), wf_node_list lines.length l = true →
      ∀ f ∈ quality_visit_list fn lines l, good_finding fn lines f
  | [], _ => by simp [quality_visit_list]
  | h :: t, hw => by
    simp only [wf_node_list, Bool.and_eq_true] at hw
    simp only [quality_visit_list]
    exact forall_mem_append (quality_visit_good fn lines h hw.1)
      (quality_visit_list_good fn lines t hw.2)
end

/-- Master invariant: every finding an analyzer run produces for one file
carries that file's name, a line between 1 and the file's line count, and the
context block computed for exactly that line. -/
theorem analyze_file_good (f : PyFile) (hw : f.wf = true) :
    ∀ g ∈ analyze_file f, good_finding f.name (split_lines f.code) g := by
  unfold analyze_file SecurityAnalyzer_analyze PerformanceAnalyzer_analyze
    CodeQualityAnalyzer_analyze
  unfold PyFile.wf at hw
  refine forall_mem_append (forall_mem_append (forall_mem_append
    (forall_mem_append
      (check_hardcoded_secrets_good f.name f.code)
      (check_sql_injection_good f.name f.code)) ?_) ?_) ?_
  · cases ht : f.tree with
    | none => simp
    | some t =>
      rw [ht] at hw
      exact security_visit_good f.name (split_lines f.code) t hw
  · cases ht : f.tree with
    | none => simp
    | some t =>
      rw [ht] at hw
      exact performance_visit_good f.name (split_lines f.code) t 0 false hw
  · cases ht : f.tree with
    | none => simp
    | some t =>
      rw [ht] at hw
      exact quality_visit_good f.name (split_lines f.code) t hw

/-- Master invariant over a whole batch. -/
theorem analyze_code_good (files : List PyFile)
    (hw : ∀ f ∈ files, f.wf = true) :
    ∀ g ∈ analyze_code files, ∃ f ∈ files,
      good_finding f.name (split_lines f.code) g := by
  intro g hg
  unfold analyze_code at hg
  simp only [List.mem_flatMap] at hg
  obtain ⟨f, hf, hgf⟩ := hg
  exact ⟨f, hf, analyze_file_good f (hw f hf) g hgf⟩

/-! ## Claim theorems -/

/-- C1: in a batch of two files where the first file's text is syntactically
invalid (its parse result is `none`) and the second parses, `analyze_code`
returns, for the invalid file, exactly the two text-pattern (regex) check
results and zero tree-based findings — the Performance and CodeQuality
analyzer runs contribute nothing for it — followed by all findings of the
valid file; symmetrically when the invalid file comes second.  `analyze_code`
is a total function of the batch, so no exception escapes. -/
theorem C1_parse_failure_isolation (bad valid : PyFile) (t : PyNode)
    (hbad : bad.tree = none) (hvalid : valid.tree = some t) :
    analyze_code [bad, valid] =
      (check_hardcoded_secrets bad.name bad.code (split_lines bad.code) ++
       check_sql_injection bad.name bad.code (split_lines bad.code)) ++
      analyze_file valid ∧
    analyze_code [valid, bad] =
      analyze_file valid ++
      (check_hardcoded_secrets bad.name bad.code (split_lines bad.code) ++
       check_sql_injection bad.name bad.code (split_lines bad.code)) ∧
    PerformanceAnalyzer_analyze bad.name bad.code bad.tree = [] ∧
    CodeQualityAnalyzer_analyze bad.name bad.code bad.tree = [] ∧
    SecurityAnalyzer_analyze bad.name bad.code bad.tree =
      check_hardcoded_secrets bad.name bad.code (split_lines bad.code) ++
      check_sql_injection bad.name bad.code (split_lines bad.code) := by
  refine ⟨?_, ?_, ?_, ?_, ?_⟩ <;>
    simp [analyze_code, analyze_file, SecurityAnalyzer_analyze,
      PerformanceAnalyzer_analyze, CodeQualityAnalyzer_analyze, hbad]

/-- Witness for C1 at a concrete batch: an unparseable file holding a
hardcoded password next to a parseable file calling `eval`. -/
def c1_bad_file : PyFile :=
  { name := "bad.py", code := "password = \"hunter2\"\ndef broken(", tree := none }

def c1_valid_file : PyFile :=
  { name := "ok.py", code := "eval(x)",
    tree := some (.module [.exprS (.call (.name "eval" 1) [.name "x" 1] [] 1) 1]) }

theorem C1_parse_failure_isolation_witness :
    analyze_code [c1_bad_file, c1_valid_file] =
      (check_hardcoded_secrets c1_bad_file.name c1_bad_file.code
        (split_lines c1_bad_file.code) ++
       check_sql_injection c1_bad_file.name c1_bad_file.code
        (split_lines c1_bad_file.code)) ++
      analyze_file c1_valid_file ∧
    analyze_code [c1_valid_file, c1_bad_file] =
      analyze_file c1_valid_file ++
      (check_hardcoded_secrets c1_bad_file.name c1_bad_file.code
        (split_lines c1_bad_file.code) ++
       check_sql_injection c1_bad_file.name c1_bad_file.code
        (split_lines c1_bad_file.code)) ∧
    PerformanceAnalyzer_analyze c1_bad_file.name c1_bad_file.code c1_bad_file.tree = [] ∧
    CodeQualityAnalyzer_analyze c1_bad_file.name c1_bad_file.code c1_bad_file.tree = [] ∧
    SecurityAnalyzer_analyze c1_bad_file.name c1_bad_file.code c1_bad_file.tree =
      check_hardcoded_secrets c1_bad_file.name c1_bad_file.code
        (split_lines c1_bad_file.code) ++
      check_sql_injection c1_bad_file.name c1_bad_file.code
        (split_lines c1_bad_file.code) :=
  C1_parse_failure_isolation c1_bad_file c1_valid_file
    (.module [.exprS (.call (.name "eval" 1) [.name "x" 1] [] 1) 1]) rfl rfl

/-- C4: for every batch whose parse trees are well-formed (every `lineno`
between 1 and the file's line count, as `ast.parse` guarantees), every
finding of `analyze_code` has `line ≥ 1`, and its context — always present —
is the context block of the finding's own line in the finding's own file,
which contains the text of that target line marked with `">>> "`. -/
theorem C4_line_and_context_invariant (files : List PyFile)
    (hw : ∀ f ∈ files, f.wf = true) :
    ∀ g ∈ analyze_code files, 1 ≤ g.line ∧
      ∀ ctx, g.context = some ctx → ∃ f ∈ files, g.file = f.name ∧
        ctx = get_code_context (split_lines f.code) g.line ∧
        (">>> " ++ py_rstrip (((split_lines f.code).get? (g.line - 1)).getD ""))
          ∈ get_code_context_lines (split_lines f.code) g.line := by
  intro g hg
  obtain ⟨f, hf, hfile, h1, h2, hctx⟩ := analyze_code_good files hw g hg
  refine ⟨h1, fun ctx hc => ⟨f, hf, hfile, ?_, ?_⟩⟩
  · rw [hc] at hctx
    exact Option.some_injective _ hctx
  · exact get_code_context_lines_contains_target _ _ h1 h2

def c4_file : PyFile :=
  { name := "pw.py", code := "password = \"hunter2\"", tree := none }

/-- Witness for C4 at a concrete batch with one password finding. -/
theorem C4_line_and_context_invariant_witness :
    1 ≤ (create_finding "pw.py" 1 "Hardcoded password detected"
          IssueCategory.security "password = \"hunter2\""
          (some ">>> password = \"hunter2\"")).line ∧
      ∀ ctx, (create_finding "pw.py" 1 "Hardcoded password detected"
          IssueCategory.security "password = \"hunter2\""
          (some ">>> password = \"hunter2\"")).context = some ctx →
        ∃ f ∈ [c4_file],
          (create_finding "pw.py" 1 "Hardcoded password detected"
            IssueCategory.security "password = \"hunter2\""
            (some ">>> password = \"hunter2\"")).file = f.name ∧
          ctx = get_code_context (split_lines f.code) 1 ∧
          (">>> " ++ py_rstrip (((split_lines f.code).get? 0).getD ""))
            ∈ get_code_context_lines (split_lines f.code) 1 :=
  C4_line_and_context_invariant [c4_file] (by decide)
    (create_finding "pw.py" 1 "Hardcoded password detected"
      IssueCategory.security "password = \"hunter2\""
      (some ">>> password = \"hunter2\"")) (by decide)

/-- C9: the engine is a pure function of the `{path: text}` batch — two runs
on the same input are equal element by element — and findings are produced
per file in batch order, each file's block in one deterministic traversal
order (the source consults no ambient state: dict iteration is insertion
order, `re.finditer` and the `ast.NodeVisitor` traversal are deterministic). -/
theorem C9_deterministic (files : List PyFile) :
    analyze_code files = analyze_code files ∧
    ∀ (f : PyFile) (rest : List PyFile),
      analyze_code (f :: rest) = analyze_file f ++ analyze_code rest :=
  ⟨rfl, fun f rest => by simp [analyze_code]⟩

/-- C10: although `Finding.context` is declared optional with default `None`,
every detector passes a context string, so every finding of `analyze_code`
has `context ≠ none`. -/
theorem C10_context_always_present (files : List PyFile)
    (hw : ∀ f ∈ files, f.wf = true) :
    ∀ g ∈ analyze_code files, ∃ c, g.context = some c := by
  intro g hg
  obtain ⟨f, _, _, _, _, hctx⟩ := analyze_code_good files hw g hg
  exact ⟨_, hctx⟩

/-- Witness for C10 at the same concrete batch. -/
theorem C10_context_always_present_witness :
    ∃ c, (create_finding "pw.py" 1 "Hardcoded password detected"
      IssueCategory.security "password = \"hunter2\""
      (some ">>> password = \"hunter2\"")).context = some c :=
  C10_context_always_present [c4_file] (by decide)
    (create_finding "pw.py" 1 "Hardcoded password detected"
      IssueCategory.security "password = \"hunter2\""
      (some ">>> password = \"hunter2\"")) (by decide)

/-! ## C3: the async blocking-call allow-list -/

/-- An async function whose body is the single statement `stmt` (the shape of
the spec's `async def` examples). -/
def async_fn_with (stmt : PyNode) (l : Nat) : PyNode :=
  .module [.asyncFunctionDef "fetch_data" [] [stmt] 1 l]

/-- C3: inside an async function body, `await asyncio.sleep(5)` produces no
finding; `r.sleep(5)` for any receiver name `r ≠ "asyncio"` produces exactly
one blocking-call performance finding at the call's line; and a bare call
`sleep(5)` produces exactly the specific finding recommending
`await asyncio.sleep()`. -/
theorem C3_async_allow_list (fn : String) (lines : List String) (r : String)
    (l : Nat) (hr : r ≠ "asyncio") :
    performance_visit fn lines 0 false
      (async_fn_with (.exprS (.awaitE (.call
        (.Attribute (.name "asyncio" l) "sleep" l)
        [.constant (.int 5) l] [] l) l) l) l) = [] ∧
    performance_visit fn lines 0 false
      (async_fn_with (.exprS (.call
        (.Attribute (.name r l) "sleep" l)
        [.constant (.int 5) l] [] l) l) l) =
      [create_finding fn l
        "Blocking call 'sleep()' in async function - use async version"
        IssueCategory.performance (get_line_content lines l)
        (some (get_code_context lines l))] ∧
    performance_visit fn lines 0 false
      (async_fn_with (.exprS (.call (.name "sleep" l)
        [.constant (.int 5) l] [] l) l) l) =
      [create_finding fn l
        "Use 'await asyncio.sleep()' instead of 'time.sleep()' in async functions"
        IssueCategory.performance (get_line_content lines l)
        (some (get_code_context lines l))] := by
  refine ⟨?_, ?_, ?_⟩ <;>
    simp [async_fn_with, performance_visit, performance_visit_list,
      blocking_call_check, blocking_funcs, hr]

/-- Witness for C3 with receiver `time` at line 2. -/
theorem C3_async_allow_list_witness :
    performance_visit "t.py" ["async def fetch_data():", "    ..."] 0 false
      (async_fn_with (.exprS (.awaitE (.call
        (.Attribute (.name "asyncio" 2) "sleep" 2)
        [.constant (.int 5) 2] [] 2) 2) 2) 2) = [] ∧
    performance_visit "t.py" ["async def fetch_data():", "    ..."] 0 false
      (async_fn_with (.exprS (.call
        (.Attribute (.name "time" 2) "sleep" 2)
        [.constant (.int 5) 2] [] 2) 2) 2) =
      [create_finding "t.py" 2
        "Blocking call 'sleep()' in async function - use async version"
        IssueCategory.performance
        (get_line_content ["async def fetch_data():", "    ..."] 2)
        (some (get_code_context ["async def fetch_data():", "    ..."] 2))] ∧
    performance_visit "t.py" ["async def fetch_data():", "    ..."] 0 false
      (async_fn_with (.exprS (.call (.name "sleep" 2)
        [.constant (.int 5) 2] [] 2) 2) 2) =
      [create_finding "t.py" 2
        "Use 'await asyncio.sleep()' instead of 'time.sleep()' in async functions"
        IssueCategory.performance
        (get_line_content ["async def fetch_data():", "    ..."] 2)
        (some (get_code_context ["async def fetch_data():", "    ..."] 2))] :=
  C3_async_allow_list "t.py" ["async def fetch_data():", "    ..."] "time" 2
    (by decide)

/-! ## C2: the in-async flag and nested non-async functions

`PerformanceVisitor` overrides `visit_AsyncFunctionDef` (save/restore of
`in_async_function`) but defines no `visit_FunctionDef`, so a synchronous
`def` nested inside an `async def` is traversed by `generic_visit` with the
flag still `True`: calls in its body DO produce blocking-call findings. -/

/-- `async def f(): def g(): time.sleep(5)` -/
def c2_nested_module : PyNode :=
  .module [.asyncFunctionDef "f" [] [
    .functionDef "g" [] [
      .exprS (.call (.Attribute (.name "time" 3) "sleep" 3)
        [.constant (.int 5) 3] [] 3) 3] 2 3] 1 3]

def c2_lines : List String :=
  ["async def f():", "    def g():", "        time.sleep(5)"]

/-- Counterexample to C2: for this file the call in the body of the nested
non-async function `g` produces exactly one blocking-call performance
finding, where the claim says it produces none. -/
theorem C2_counterexample :
    performance_visit "t.py" c2_lines 0 false c2_nested_module =
      [create_finding "t.py" 3
        "Blocking call 'sleep()' in async function - use async version"
        IssueCategory.performance (get_line_content c2_lines 3)
        (some (get_code_context c2_lines 3))] ∧
    performance_visit "t.py" c2_lines 0 false c2_nested_module ≠ [] := by
  refine ⟨by decide, ?_⟩
  intro h
  rw [show performance_visit "t.py" c2_lines 0 false c2_nested_module =
    [create_finding "t.py" 3
      "Blocking call 'sleep()' in async function - use async version"
      IssueCategory.performance (get_line_content c2_lines 3)
      (some (get_code_context c2_lines 3))] from by decide] at h
  simp at h

/-- C2 amended: the in-async-context flag is NOT restored for a nested
non-async function — only `AsyncFunctionDef` saves and restores it — so for
every receiver name `r ≠ "asyncio"`, an `r.sleep(...)` call in the body of a
non-async function nested inside an async function produces exactly the
blocking-call performance finding. -/
theorem C2_amended_flag_inherited (fn : String) (lines : List String)
    (r nm1 nm2 : String) (l1 l2 l3 e1 e2 : Nat) (hr : r ≠ "asyncio") :
    performance_visit fn lines 0 false
      (.module [.asyncFunctionDef nm1 [] [
        .functionDef nm2 [] [
          .exprS (.call (.Attribute (.name r l3) "sleep" l3)
            [.constant (.int 5) l3] [] l3) l3] l2 e2] l1 e1]) =
      [create_finding fn l3
        "Blocking call 'sleep()' in async function - use async version"
        IssueCategory.performance (get_line_content lines l3)
        (some (get_code_context lines l3))] := by
  simp [performance_visit, performance_visit_list, blocking_call_check,
    blocking_funcs, hr]

/-- Witness for the amended C2 at the counterexample input. -/
theorem C2_amended_flag_inherited_witness :
    performance_visit "t.py" c2_lines 0 false
      (.module [.asyncFunctionDef "f" [] [
        .functionDef "g" [] [
          .exprS (.call (.Attribute (.name "time" 3) "sleep" 3)
            [.constant (.int 5) 3] [] 3) 3] 2 3] 1 3]) =
      [create_finding "t.py" 3
        "Blocking call 'sleep()' in async function - use async version"
        IssueCategory.performance (get_line_content c2_lines 3)
        (some (get_code_context c2_lines 3))] :=
  C2_amended_flag_inherited "t.py" c2_lines "time" "f" "g" 1 2 3 3 3 (by decide)

/-! ## C5: the AWS-access-key pattern under `re.IGNORECASE`

The pattern `aws[_-]?access[_-]?key[_-]?id\s*=\s*["']([A-Z0-9]{20})["']` is
compiled with `re.IGNORECASE`, which makes the character class `[A-Z0-9]`
match lowercase letters as well, so "exactly 20 uppercase alphanumeric" in
the claim is wrong: a 20-character value containing lowercase letters is
still matched. -/

def c5_lower_code : String := "aws_access_key_id = \"abcdefghij0123456789\""

/-- Counterexample to C5: an assignment whose 20-character quoted value
contains lowercase letters yields exactly one AWS-key finding, where the
claim says it yields none. -/
theorem C5_counterexample :
    check_hardcoded_secrets "t.py" c5_lower_code (split_lines c5_lower_code) =
      [create_finding "t.py" 1 "Hardcoded AWS access key detected"
        IssueCategory.security c5_lower_code
        (some (">>> " ++ c5_lower_code))] ∧
    check_hardcoded_secrets "t.py" c5_lower_code (split_lines c5_lower_code)
      ≠ [] := by
  refine ⟨by decide, ?_⟩
  intro h
  rw [show check_hardcoded_secrets "t.py" c5_lower_code (split_lines c5_lower_code) =
    [create_finding "t.py" 1 "Hardcoded AWS access key detected"
      IssueCategory.security c5_lower_code
      (some (">>> " ++ c5_lower_code))] from by decide] at h
  simp at h

/-- C5 amended: because the pattern carries `re.IGNORECASE`, the AWS detector
matches when the quoted value consists of exactly 20 alphanumeric characters
of either case: 20 lowercase letters/digits and 20 uppercase letters/digits
both match, while 19 or 21 characters, or a 20-character value containing a
non-alphanumeric character, do not. -/
theorem C5_amended_ignorecase :
    finditer aws_key_pattern "aws_access_key_id = \"abcdefghij0123456789\"".data
      = [(0, 42)] ∧
    finditer aws_key_pattern "aws_access_key_id = \"ABCDEFGHIJ0123456789\"".data
      = [(0, 42)] ∧
    finditer aws_key_pattern "aws_access_key_id = \"ABCDEFGHIJ012345678\"".data
      = [] ∧
    finditer aws_key_pattern "aws_access_key_id = \"ABCDEFGHIJ0123456789A\"".data
      = [] ∧
    finditer aws_key_pattern "aws_access_key_id = \"abcdefghij01234567-9\"".data
      = [] := by
  refine ⟨by decide, by decide, by decide, by decide, by decide⟩

/-! ## Message discrimination

The detectors are told apart by constant prefixes/suffixes of their `issue`
strings; the interpolated middles (names, counts) never disturb a
discriminating constant that is at least as long as the probe. -/

theorem prefix_append_iff_of_le {X C y : List Char} (h : X.length ≤ C.length) :
    X <+: C ++ y ↔ X <+: C := by
  constructor
  · intro hp
    rw [List.prefix_iff_eq_take] at hp ⊢
    rwa [List.take_append_of_le_length h] at hp
  · intro hp
    exact hp.trans (List.prefix_append C y)

theorem suffix_append_iff_of_le {X B y : List Char} (h : X.length ≤ B.length) :
    X <:+ y ++ B ↔ X <:+ B := by
  rw [← List.reverse_prefix, List.reverse_append,
    prefix_append_iff_of_le (by simpa using h), List.reverse_prefix]

theorem isPrefixOf_append_left {X C : List Char} (y : List Char)
    (hC : X.isPrefixOf C = true) : X.isPrefixOf (C ++ y) = true := by
  rw [List.isPrefixOf_iff_prefix] at hC ⊢
  exact hC.trans (List.prefix_append C y)

theorem isPrefixOf_append_false {X C : List Char} (y : List Char)
    (hlen : X.length ≤ C.length) (hC : X.isPrefixOf C = false) :
    X.isPrefixOf (C ++ y) = false := by
  rw [← Bool.not_eq_true] at hC ⊢
  rw [List.isPrefixOf_iff_prefix] at hC ⊢
  rwa [prefix_append_iff_of_le hlen]

theorem isSuffixOf_append_right {X B : List Char} (y : List Char)
    (hB : X.isSuffixOf B = true) : X.isSuffixOf (y ++ B) = true := by
  rw [List.isSuffixOf_iff_suffix] at hB ⊢
  exact hB.trans (List.suffix_append y B)

theorem isSuffixOf_append_false {X B : List Char} (y : List Char)
    (hlen : X.length ≤ B.length) (hB : X.isSuffixOf B = false) :
    X.isSuffixOf (y ++ B) = false := by
  rw [← Bool.not_eq_true] at hB ⊢
  rw [List.isSuffixOf_iff_suffix] at hB ⊢
  rwa [suffix_append_iff_of_le hlen]

/-- A deep-nesting performance finding (both the `for` and the `while`
message start with this constant). -/
def is_deep_finding (f : Finding) : Bool :=
  "Deeply nested".data.isPrefixOf f.issue.data

/-- A missing-docstring code-quality finding (both the function and the class
message end with this constant). -/
def is_doc_finding (f : Finding) : Bool :=
  " is missing a docstring".data.isSuffixOf f.issue.data

/-- A high-cyclomatic-complexity code-quality finding. -/
def is_complexity_finding (f : Finding) : Bool :=
  ") - consider simplifying".data.isSuffixOf f.issue.data

/-! ## C6: deep-nesting findings of a triple-nested loop -/

mutual
/-- No `for`/`while` loop anywhere in the subtree. -/
def no_loops : PyNode → Bool
  | .forS _ _ _ _ _ => false
  | .whileS _ _ _ _ => false
  | .module body => no_loops_list body
  | .functionDef _ _ body _ _ => no_loops_list body
  | .asyncFunctionDef _ _ body _ _ => no_loops_list body
  | .classDef _ body _ => no_loops_list body
  | .ifS t b o _ => no_loops t && no_loops_list b && no_loops_list o
  | .tryS b h o f _ =>
    no_loops_list b && no_loops_list h && no_loops_list o && no_loops_list f
  | .exceptHandler b _ => no_loops_list b
  | .assign ts v _ => no_loops_list ts && no_loops v
  | .exprS v _ => no_loops v
  | .ret v _ => no_loops_list v
  | .call f a k _ => no_loops f && no_loops_list a && no_loops_list k
  | .keywordArg _ v => no_loops v
  | .Attribute v _ _ => no_loops v
  | .name _ _ => true
  | .constant _ _ => true
  | .boolOp vs _ => no_loops_list vs
  | .listComp e g _ => no_loops e && no_loops_list g
  | .comprehension t i ifs => no_loops t && no_loops i && no_loops_list ifs
  | .awaitE v _ => no_loops v

def no_loops_list : List PyNode → Bool
  | [] => true
  | h :: t => no_loops h && no_loops_list t
end

theorem is_deep_deep_for (fn : String) (lines : List String) (d l : Nat) :
    is_deep_finding (deep_for_finding fn lines d l) = true := by
  simp only [is_deep_finding, deep_for_finding, create_finding, String.data_append]
  rw [List.append_assoc]
  exact isPrefixOf_append_left _ (by decide)

theorem is_deep_deep_while (fn : String) (lines : List String) (d l : Nat) :
    is_deep_finding (deep_while_finding fn lines d l) = true := by
  simp only [is_deep_finding, deep_while_finding, create_finding, String.data_append]
  rw [List.append_assoc]
  exact isPrefixOf_append_left _ (by decide)

theorem is_deep_append_finding (fn : String) (lines : List String) (l : Nat) :
    is_deep_finding (append_finding fn lines l) = false := by
  simp only [is_deep_finding, append_finding, create_finding]
  decide

theorem is_deep_blocking (fn attr : String) (lines : List String) (l : Nat) :
    is_deep_finding (create_finding fn l
      ("Blocking call '" ++ attr ++ "()' in async function - use async version")
      IssueCategory.performance (get_line_content lines l)
      (some (get_code_context lines l))) = false := by
  simp only [is_deep_finding, create_finding, String.data_append]
  rw [List.append_assoc]
  exact isPrefixOf_append_false _ (by decide) (by decide)

theorem is_deep_bare_sleep (fn : String) (lines : List String) (l : Nat) :
    is_deep_finding (create_finding fn l
      "Use 'await asyncio.sleep()' instead of 'time.sleep()' in async functions"
      IssueCategory.performance (get_line_content lines l)
      (some (get_code_context lines l))) = false := by
  simp only [is_deep_finding, create_finding]
  decide

theorem is_deep_nested_comp (fn : String) (lines : List String) (l : Nat) :
    is_deep_finding (create_finding fn l
      "Nested list comprehension detected - consider breaking into separate steps for readability"
      IssueCategory.performance (get_line_content lines l)
      (some (get_code_context lines l))) = false := by
  simp only [is_deep_finding, create_finding]
  decide

theorem walk_append_filter_deep (fn : String) (lines : List String) :
    ∀ (fuel : Nat) (q : List PyNode),
      (walk_append_go fn lines fuel q).filter is_deep_finding = [] := by
  intro fuel
  induction fuel with
  | zero => intro q; simp [walk_append_go]
  | succ fuel ih =>
    intro q
    match q with
    | [] => simp [walk_append_go]
    | h :: t =>
      simp only [walk_append_go, List.filter_append]
      rw [ih]
      split <;> simp [is_deep_append_finding]

theorem blocking_call_check_filter_deep (fn : String) (lines : List String)
    (func : PyNode) (l : Nat) :
    (blocking_call_check fn lines func l).filter is_deep_finding = [] := by
  unfold blocking_call_check
  split
  · split
    · split
      · simp
      · simp [is_deep_blocking]
    · simp
  · split
    · simp [is_deep_bare_sleep]
    · simp
  · simp

theorem nested_comp_emit_filter_deep (fn : String) (lines : List String)
    (g : List PyNode) (l : Nat) :
    ((g.flatMap fun gen =>
      match gen with
      | .comprehension _ (.listComp _ _ _) _ =>
        [create_finding fn l
          "Nested list comprehension detected - consider breaking into separate steps for readability"
          IssueCategory.performance (get_line_content lines l)
          (some (get_code_context lines l))]
      | _ => []).filter is_deep_finding) = [] := by
  induction g with
  | nil => simp
  | cons gen rest ih =>
    simp only [List.flatMap_cons, List.filter_append, ih, List.append_nil]
    split <;> simp [is_deep_nested_comp]

mutual
theorem perf_filter_deep (fn : String) (lines : List String) :
    ∀ (n : PyNode) (depth : Nat) (inAsync : Bool), no_loops n = true →
      (performance_visit fn lines depth inAsync n).filter is_deep_finding = []
  | .forS t i b o l, depth, inAsync, h => by simp [no_loops] at h
  | .whileS t b o l, depth, inAsync, h => by simp [no_loops] at h
  | .call fc a k l, depth, inAsync, h => by
    simp only [no_loops, Bool.and_eq_true] at h
    obtain ⟨⟨hfc, ha⟩, hk⟩ := h
    simp only [performance_visit, List.filter_append]
    rw [perf_filter_deep fn lines fc depth inAsync hfc,
      perf_filter_deep_list fn lines a depth inAsync ha,
      perf_filter_deep_list fn lines k depth inAsync hk]
    cases inAsync <;> simp [blocking_call_check_filter_deep]
  | .listComp e g l, depth, inAsync, h => by
    simp only [no_loops, Bool.and_eq_true] at h
    obtain ⟨he, hg⟩ := h
    simp only [performance_visit, List.filter_append]
    rw [perf_filter_deep fn lines e depth inAsync he,
      perf_filter_deep_list fn lines g depth inAsync hg,
      nested_comp_emit_filter_deep]
    simp
  | .module body, depth, inAsync, h => by
    simp only [no_loops, Bool.and_eq_true] at h
    simp only [performance_visit, List.filter_append]
    rw [perf_filter_deep_list fn lines body depth inAsync h]
  | .functionDef nm an body l e, depth, inAsync, h => by
    simp only [no_loops, Bool.and_eq_true] at h
    simp only [performance_visit, List.filter_append]
    rw [perf_filter_deep_list fn lines body depth inAsync h]
  | .asyncFunctionDef nm an body l e, depth, inAsync, h => by
    simp only [no_loops, Bool.and_eq_true] at h
    simp only [performance_visit, List.filter_append]
    rw [perf_filter_deep_list fn lines body depth true h]
  | .classDef nm body l, depth, inAsync, h => by
    simp only [no_loops, Bool.and_eq_true] at h
    simp only [performance_visit, List.filter_append]
    rw [perf_filter_deep_list fn lines body depth inAsync h]
  | .ifS t b o l, depth, inAsync, h => by
    simp only [no_loops, Bool.and_eq_true] at h
    obtain ⟨⟨ht, hb⟩, ho⟩ := h
    simp only [performance_visit, List.filter_append]
    rw [perf_filter_deep fn lines t depth inAsync ht, perf_filter_deep_list fn lines b depth inAsync hb, perf_filter_deep_list fn lines o depth inAsync ho]
    simp
  | .tryS b hs o fb l, depth, inAsync, h => by
    simp only [no_loops, Bool.and_eq_true] at h
    obtain ⟨⟨⟨hb, hh⟩, ho⟩, hfb⟩ := h
    simp only [performance_visit, List.filter_append]
    rw [perf_filter_deep_list fn lines b depth inAsync hb, perf_filter_deep_list fn lines hs depth inAsync hh, perf_filter_deep_list fn lines o depth inAsync ho, perf_filter_deep_list fn lines fb depth inAsync hfb]
    simp
  | .exceptHandler b l, depth, inAsync, h => by
    simp only [no_loops, Bool.and_eq_true] at h
    simp only [performance_visit, List.filter_append]
    rw [perf_filter_deep_list fn lines b depth inAsync h]
  | .assign ts v l, depth, inAsync, h => by
    simp only [no_loops, Bool.and_eq_true] at h
    obtain ⟨hts, hv⟩ := h
    simp only [performance_visit, List.filter_append]
    rw [perf_filter_deep_list fn lines ts depth inAsync hts, perf_filter_deep fn lines v depth inAsync hv]
    simp
  | .exprS v l, depth, inAsync, h => by
    simp only [no_loops, Bool.and_eq_true] at h
    simp only [performance_visit, List.filter_append]
    rw [perf_filter_deep fn lines v depth inAsync h]
  | .ret v l, depth, inAsync, h => by
    simp only [no_loops, Bool.and_eq_true] at h
    simp only [performance_visit, List.filter_append]
    rw [perf_filter_deep_list fn lines v depth inAsync h]
  | .keywordArg a v, depth, inAsync, h => by
    simp only [no_loops, Bool.and_eq_true] at h
    simp only [performance_visit, List.filter_append]
    rw [perf_filter_deep fn lines v depth inAsync h]
  | .Attribute v atr l, depth, inAsync, h => by
    simp only [no_loops, Bool.and_eq_true] at h
    simp only [performance_visit, List.filter_append]
    rw [perf_filter_deep fn lines v depth inAsync h]
  | .name id l, depth, inAsync, h => by
    simp [performance_visit]
  | .constant c l, depth, inAsync, h => by
    simp [performance_visit]
  | .boolOp vs l, depth, inAsync, h => by
    simp only [no_loops, Bool.and_eq_true] at h
    simp only [performance_visit, List.filter_append]
    rw [perf_filter_deep_list fn lines vs depth inAsync h]
  | .comprehension t i ifs, depth, inAsync, h => by
    simp only [no_loops, Bool.and_eq_true] at h
    obtain ⟨⟨ht, hi⟩, hifs⟩ := h
    simp only [performance_visit, List.filter_append]
    rw [perf_filter_deep fn lines t depth inAsync ht, perf_filter_deep fn lines i depth inAsync hi, perf_filter_deep_list fn lines ifs depth inAsync hifs]
    simp
  | .awaitE v l, depth, inAsync, h => by
    simp only [no_loops, Bool.and_eq_true] at h
    simp only [performance_visit, List.filter_append]
    rw [perf_filter_deep fn lines v depth inAsync h]
theorem perf_filter_deep_list (fn : String) (lines : List String) :
    ∀ (l : List PyNode) (depth : Nat) (inAsync : Bool), no_loops_list l = true →
      (performance_visit_list fn lines depth inAsync l).filter is_deep_finding = []
  | [], _, _, _ => by simp [performance_visit_list]
  | h :: t, depth, inAsync, hnl => by
    simp only [no_loops_list, Bool.and_eq_true] at hnl
    simp only [performance_visit_list, List.filter_append]
    rw [perf_filter_deep fn lines h depth inAsync hnl.1,
      perf_filter_deep_list fn lines t depth inAsync hnl.2]
    simp
end


theorem performance_visit_list_append (fn : String) (lines : List String)
    (depth : Nat) (inAsync : Bool) (a b : List PyNode) :
    performance_visit_list fn lines depth inAsync (a ++ b) =
      performance_visit_list fn lines depth inAsync a ++
      performance_visit_list fn lines depth inAsync b := by
  induction a with
  | nil => simp [performance_visit_list]
  | cons h t ih => simp [performance_visit_list, ih]

/-- A file whose only loop construct is one triple-nested `for` chain:
arbitrary loop-free statements surround the chain at top level and inside
each loop body. -/
def triple_for_module (pre post b1a b1b b2a b2b b3 : List PyNode)
    (t1 i1 t2 i2 t3 i3 : PyNode) (l1 l2 l3 : Nat) : PyNode :=
  .module (pre ++
    [.forS t1 i1 (b1a ++
      [.forS t2 i2 (b2a ++
        [.forS t3 i3 b3 [] l3] ++ b2b) [] l2] ++ b1b) [] l1] ++ post)

/-- C6: for a file containing exactly one triple-nested `for` loop and no
other loop constructs, the performance rule set emits exactly one
deep-nesting finding, at the line of the depth-3 `for` node (with depth 3 in
its message), and none at the depth-1 or depth-2 loops. -/
theorem C6_triple_nested_loop (fn : String) (lines : List String)
    (pre post b1a b1b b2a b2b b3 : List PyNode)
    (t1 i1 t2 i2 t3 i3 : PyNode) (l1 l2 l3 : Nat)
    (hpre : no_loops_list pre = true) (hpost : no_loops_list post = true)
    (hb1a : no_loops_list b1a = true) (hb1b : no_loops_list b1b = true)
    (hb2a : no_loops_list b2a = true) (hb2b : no_loops_list b2b = true)
    (hb3 : no_loops_list b3 = true)
    (ht1 : no_loops t1 = true) (hi1 : no_loops i1 = true)
    (ht2 : no_loops t2 = true) (hi2 : no_loops i2 = true)
    (ht3 : no_loops t3 = true) (hi3 : no_loops i3 = true) :
    (performance_visit fn lines 0 false
      (triple_for_module pre post b1a b1b b2a b2b b3 t1 i1 t2 i2 t3 i3 l1 l2 l3)).filter
        is_deep_finding = [deep_for_finding fn lines 3 l3] := by
  simp only [triple_for_module, performance_visit, performance_visit_list_append,
    performance_visit_list, List.filter_append, List.append_nil, List.nil_append]
  rw [perf_filter_deep_list fn lines pre 0 false hpre,
    perf_filter_deep_list fn lines post 0 false hpost,
    perf_filter_deep_list fn lines b1a 1 false hb1a,
    perf_filter_deep_list fn lines b1b 1 false hb1b,
    perf_filter_deep_list fn lines b2a 2 false hb2a,
    perf_filter_deep_list fn lines b2b 2 false hb2b,
    perf_filter_deep_list fn lines b3 3 false hb3,
    perf_filter_deep fn lines t1 1 false ht1,
    perf_filter_deep fn lines i1 1 false hi1,
    perf_filter_deep fn lines t2 2 false ht2,
    perf_filter_deep fn lines i2 2 false hi2,
    perf_filter_deep fn lines t3 3 false ht3,
    perf_filter_deep fn lines i3 3 false hi3]
  simp [walk_append, walk_append_filter_deep, is_deep_deep_for]

/-- Witness for C6: the bare triple loop
`for i in xs: for j in ys: for k in zs: 0`. -/
theorem C6_triple_nested_loop_witness :
    (performance_visit "t.py" ["l1", "l2", "l3", "l4"] 0 false
      (triple_for_module [] [] [] [] [] [] [.exprS (.constant (.int 0) 4) 4]
        (.name "i" 1) (.name "xs" 1) (.name "j" 2) (.name "ys" 2)
        (.name "k" 3) (.name "zs" 3) 1 2 3)).filter is_deep_finding =
      [deep_for_finding "t.py" ["l1", "l2", "l3", "l4"] 3 3] :=
  C6_triple_nested_loop "t.py" ["l1", "l2", "l3", "l4"]
    [] [] [] [] [] [] [.exprS (.constant (.int 0) 4) 4]
    (.name "i" 1) (.name "xs" 1) (.name "j" 2) (.name "ys" 2)
    (.name "k" 3) (.name "zs" 3) 1 2 3
    (by decide) (by decide) (by decide) (by decide) (by decide) (by decide)
    (by decide) (by decide) (by decide) (by decide) (by decide) (by decide)
    (by decide)

/-! ## C7: cyclomatic complexity

Spec-side formula: `1 + (#if + #for + #while + #exceptionHandlers) +
sum over boolean-operator nodes of (operand count - 1)`, summed over all
nodes of the function's subtree.  `subtree_sum f` sums a per-node local
contribution over a whole subtree. -/

mutual
/-- Sum of a per-node contribution over all nodes of a subtree. -/
def subtree_sum (f : PyNode → Nat) : PyNode → Nat
  | .module body => f (.module body) + subtree_sum_list f body
  | .functionDef nm an body l e => f (.functionDef nm an body l e) + subtree_sum_list f body
  | .asyncFunctionDef nm an body l e => f (.asyncFunctionDef nm an body l e) + subtree_sum_list f body
  | .classDef nm body l => f (.classDef nm body l) + subtree_sum_list f body
  | .forS t i b o l => f (.forS t i b o l) + subtree_sum f t + subtree_sum f i + subtree_sum_list f b + subtree_sum_list f o
  | .whileS t b o l => f (.whileS t b o l) + subtree_sum f t + subtree_sum_list f b + subtree_sum_list f o
  | .ifS t b o l => f (.ifS t b o l) + subtree_sum f t + subtree_sum_list f b + subtree_sum_list f o
  | .tryS b hs o fb l => f (.tryS b hs o fb l) + subtree_sum_list f b + subtree_sum_list f hs + subtree_sum_list f o + subtree_sum_list f fb
  | .exceptHandler b l => f (.exceptHandler b l) + subtree_sum_list f b
  | .assign ts v l => f (.assign ts v l) + subtree_sum_list f ts + subtree_sum f v
  | .exprS v l => f (.exprS v l) + subtree_sum f v
  | .ret v l => f (.ret v l) + subtree_sum_list f v
  | .call fc a k l => f (.call fc a k l) + subtree_sum f fc + subtree_sum_list f a + subtree_sum_list f k
  | .keywordArg a v => f (.keywordArg a v) + subtree_sum f v
  | .Attribute v atr l => f (.Attribute v atr l) + subtree_sum f v
  | .name id l => f (.name id l)
  | .constant c l => f (.constant c l)
  | .boolOp vs l => f (.boolOp vs l) + subtree_sum_list f vs
  | .listComp e g l => f (.listComp e g l) + subtree_sum f e + subtree_sum_list f g
  | .comprehension t i ifs => f (.comprehension t i ifs) + subtree_sum f t + subtree_sum f i + subtree_sum_list f ifs
  | .awaitE v l => f (.awaitE v l) + subtree_sum f v

def subtree_sum_list (f : PyNode → Nat) : List PyNode → Nat
  | [] => 0
  | h :: t => subtree_sum f h + subtree_sum_list f t
end

/-- Indicator contributions for the four branch-node kinds and the
boolean-operator excess. -/
def is_if_node : PyNode → Nat
  | .ifS _ _ _ _ => 1
  | _ => 0

def is_for_node : PyNode → Nat
  | .forS _ _ _ _ _ => 1
  | _ => 0

def is_while_node : PyNode → Nat
  | .whileS _ _ _ _ => 1
  | _ => 0

def is_handler_node : PyNode → Nat
  | .exceptHandler _ _ => 1
  | _ => 0

def bool_op_excess : PyNode → Nat
  | .boolOp vs _ => vs.length - 1
  | _ => 0

mutual
theorem complexity_count_eq :
    ∀ n : PyNode, complexity_count n =
      subtree_sum is_if_node n + subtree_sum is_for_node n +
      subtree_sum is_while_node n + subtree_sum is_handler_node n +
      subtree_sum bool_op_excess n
  | .module body => by
    simp only [complexity_count, subtree_sum, is_if_node, is_for_node,
      is_while_node, is_handler_node, bool_op_excess]
    have h0 := complexity_count_list_eq body
    omega
  | .functionDef nm an body l e => by
    simp only [complexity_count, subtree_sum, is_if_node, is_for_node,
      is_while_node, is_handler_node, bool_op_excess]
    have h0 := complexity_count_list_eq body
    omega
  | .asyncFunctionDef nm an body l e => by
    simp only [complexity_count, subtree_sum, is_if_node, is_for_node,
      is_while_node, is_handler_node, bool_op_excess]
    have h0 := complexity_count_list_eq body
    omega
  | .classDef nm body l => by
    simp only [complexity_count, subtree_sum, is_if_node, is_for_node,
      is_while_node, is_handler_node, bool_op_excess]
    have h0 := complexity_count_list_eq body
    omega
  | .forS t i b o l => by
    simp only [complexity_count, subtree_sum, is_if_node, is_for_node,
      is_while_node, is_handler_node, bool_op_excess]
    have h0 := complexity_count_eq t
    have h1 := complexity_count_eq i
    have h2 := complexity_count_list_eq b
    have h3 := complexity_count_list_eq o
    omega
  | .whileS t b o l => by
    simp only [complexity_count, subtree_sum, is_if_node, is_for_node,
      is_while_node, is_handler_node, bool_op_excess]
    have h0 := complexity_count_eq t
    have h1 := complexity_count_list_eq b
    have h2 := complexity_count_list_eq o
    omega
  | .ifS t b o l => by
    simp only [complexity_count, subtree_sum, is_if_node, is_for_node,
      is_while_node, is_handler_node, bool_op_excess]
    have h0 := complexity_count_eq t
    have h1 := complexity_count_list_eq b
    have h2 := complexity_count_list_eq o
    omega
  | .tryS b hs o fb l => by
    simp only [complexity_count, subtree_sum, is_if_node, is_for_node,
      is_while_node, is_handler_node, bool_op_excess]
    have h0 := complexity_count_list_eq b
    have h1 := complexity_count_list_eq hs
    have h2 := complexity_count_list_eq o
    have h3 := complexity_count_list_eq fb
    omega
  | .exceptHandler b l => by
    simp only [complexity_count, subtree_sum, is_if_node, is_for_node,
      is_while_node, is_handler_node, bool_op_excess]
    have h0 := complexity_count_list_eq b
    omega
  | .assign ts v l => by
    simp only [complexity_count, subtree_sum, is_if_node, is_for_node,
      is_while_node, is_handler_node, bool_op_excess]
    have h0 := complexity_count_list_eq ts
    have h1 := complexity_count_eq v
    omega
  | .exprS v l => by
    simp only [complexity_count, subtree_sum, is_if_node, is_for_node,
      is_while_node, is_handler_node, bool_op_excess]
    have h0 := complexity_count_eq v
    omega
  | .ret v l => by
    simp only [complexity_count, subtree_sum, is_if_node, is_for_node,
      is_while_node, is_handler_node, bool_op_excess]
    have h0 := complexity_count_list_eq v
    omega
  | .call fc a k l => by
    simp only [complexity_count, subtree_sum, is_if_node, is_for_node,
      is_while_node, is_handler_node, bool_op_excess]
    have h0 := complexity_count_eq fc
    have h1 := complexity_count_list_eq a
    have h2 := complexity_count_list_eq k
    omega
  | .keywordArg a v => by
    simp only [complexity_count, subtree_sum, is_if_node, is_for_node,
      is_while_node, is_handler_node, bool_op_excess]
    have h0 := complexity_count_eq v
    omega
  | .Attribute v atr l => by
    simp only [complexity_count, subtree_sum, is_if_node, is_for_node,
      is_while_node, is_handler_node, bool_op_excess]
    have h0 := complexity_count_eq v
    omega
  | .name id l => by
    simp [complexity_count, subtree_sum, is_if_node, is_for_node,
      is_while_node, is_handler_node, bool_op_excess]
  | .constant c l => by
    simp [complexity_count, subtree_sum, is_if_node, is_for_node,
      is_while_node, is_handler_node, bool_op_excess]
  | .boolOp vs l => by
    simp only [complexity_count, subtree_sum, is_if_node, is_for_node,
      is_while_node, is_handler_node, bool_op_excess]
    have h0 := complexity_count_list_eq vs
    omega
  | .listComp e g l => by
    simp only [complexity_count, subtree_sum, is_if_node, is_for_node,
      is_while_node, is_handler_node, bool_op_excess]
    have h0 := complexity_count_eq e
    have h1 := complexity_count_list_eq g
    omega
  | .comprehension t i ifs => by
    simp only [complexity_count, subtree_sum, is_if_node, is_for_node,
      is_while_node, is_handler_node, bool_op_excess]
    have h0 := complexity_count_eq t
    have h1 := complexity_count_eq i
    have h2 := complexity_count_list_eq ifs
    omega
  | .awaitE v l => by
    simp only [complexity_count, subtree_sum, is_if_node, is_for_node,
      is_while_node, is_handler_node, bool_op_excess]
    have h0 := complexity_count_eq v
    omega
theorem complexity_count_list_eq :
    ∀ l : List PyNode, complexity_count_list l =
      subtree_sum_list is_if_node l + subtree_sum_list is_for_node l +
      subtree_sum_list is_while_node l + subtree_sum_list is_handler_node l +
      subtree_sum_list bool_op_excess l
  | [] => by simp [complexity_count_list, subtree_sum_list]
  | h :: t => by
    simp only [complexity_count_list, subtree_sum_list]
    have h0 := complexity_count_eq h
    have h1 := complexity_count_list_eq t
    omega
end


theorem is_cplx_length_msg (fn nm : String) (lines : List String) (l k : Nat) :
    is_complexity_finding (create_finding fn l
      ("Function '" ++ nm ++ "' is too long (" ++ toString k
        ++ " lines) - consider breaking it down")
      IssueCategory.codeQuality ("def " ++ nm ++ "(...)")
      (some (get_code_context lines l))) = false := by
  simp only [is_complexity_finding, create_finding, String.data_append]
  exact isSuffixOf_append_false _ (by decide) (by decide)

theorem is_cplx_doc_msg (fn nm : String) (lines : List String) (l : Nat) :
    is_complexity_finding (create_finding fn l
      ("Function '" ++ nm ++ "' is missing a docstring")
      IssueCategory.codeQuality ("def " ++ nm ++ "(...)")
      (some (get_code_context lines l))) = false := by
  simp only [is_complexity_finding, create_finding, String.data_append]
  exact isSuffixOf_append_false _ (by decide) (by decide)

theorem is_cplx_params_msg (fn nm : String) (lines : List String) (l k : Nat) :
    is_complexity_finding (create_finding fn l
      ("Function '" ++ nm ++ "' has too many parameters (" ++ toString k
        ++ ") - consider using a config object")
      IssueCategory.codeQuality ("def " ++ nm ++ "(...)")
      (some (get_code_context lines l))) = false := by
  simp only [is_complexity_finding, create_finding, String.data_append]
  exact isSuffixOf_append_false _ (by decide) (by decide)

theorem is_cplx_cplx_msg (fn nm : String) (lines : List String) (l k : Nat) :
    is_complexity_finding (create_finding fn l
      ("Function '" ++ nm ++ "' has high cyclomatic complexity (" ++ toString k
        ++ ") - consider simplifying")
      IssueCategory.codeQuality ("def " ++ nm ++ "(...)")
      (some (get_code_context lines l))) = true := by
  simp only [is_complexity_finding, create_finding, String.data_append]
  exact isSuffixOf_append_right _ (by decide)

/-- The high-complexity findings among a function's four checks are exactly
the one produced when `_calculate_complexity` exceeds 10 — in particular a
function of complexity exactly 10 is not flagged. -/
theorem function_def_checks_filter_complexity (fn : String) (lines : List String)
    (nm : String) (an : List String) (body : List PyNode) (l e : Nat) :
    (function_def_checks fn lines nm an body l e).filter is_complexity_finding =
      if calculate_complexity (.functionDef nm an body l e) > 10 then
        [create_finding fn l
          ("Function '" ++ nm ++ "' has high cyclomatic complexity ("
            ++ toString (calculate_complexity (.functionDef nm an body l e))
            ++ ") - consider simplifying")
          IssueCategory.codeQuality ("def " ++ nm ++ "(...)")
          (some (get_code_context lines l))]
      else [] := by
  unfold function_def_checks
  simp only [List.filter_append]
  rw [show ((if e - l > 50 then
      [create_finding fn l
        ("Function '" ++ nm ++ "' is too long (" ++ toString (e - l)
          ++ " lines) - consider breaking it down")
        IssueCategory.codeQuality ("def " ++ nm ++ "(...)")
        (some (get_code_context lines l))]
    else []).filter is_complexity_finding) = [] from by
      split <;> simp [is_cplx_length_msg]]
  rw [show ((if docstring_missing body && !(nm.startsWith "_") then
      [create_finding fn l ("Function '" ++ nm ++ "' is missing a docstring")
        IssueCategory.codeQuality ("def " ++ nm ++ "(...)")
        (some (get_code_context lines l))]
    else []).filter is_complexity_finding) = [] from by
      split <;> simp [is_cplx_doc_msg]]
  rw [show ((if an.length > 5 then
      [create_finding fn l
        ("Function '" ++ nm ++ "' has too many parameters (" ++ toString an.length
          ++ ") - consider using a config object")
        IssueCategory.codeQuality ("def " ++ nm ++ "(...)")
        (some (get_code_context lines l))]
    else []).filter is_complexity_finding) = [] from by
      split <;> simp [is_cplx_params_msg]]
  split <;> simp [is_cplx_cplx_msg]

/-- `k` independent `if` statements (constant tests, constant bodies). -/
def c7_ifs : Nat → List PyNode
  | 0 => []
  | n + 1 =>
    .ifS (.constant (.bool true) (n + 2)) [.exprS (.constant .noneC (n + 2)) (n + 2)]
      [] (n + 2) :: c7_ifs n

/-- A documented function whose body is `k` independent `if` statements and
no other control flow. -/
def c7_fn (k : Nat) : PyNode :=
  .functionDef "branchy" [] ((.exprS (.constant (.str "doc") 2) 2) :: c7_ifs k) 1 30

def c7_lines : List String := List.replicate 40 "line"

/-- C7: `_calculate_complexity` equals the spec formula
`1 + (#if + #for + #while + #exceptionHandlers) + sum of (BoolOp operand
count - 1)` over the subtree; the complexity findings of a function's checks
are exactly the one emitted when that number exceeds 10; a function with 11
independent `if` statements computes 12 and is flagged, and one with 9
(complexity exactly 10) is not flagged. -/
theorem C7_cyclomatic_complexity :
    (∀ n : PyNode, calculate_complexity n =
      1 + (subtree_sum is_if_node n + subtree_sum is_for_node n +
        subtree_sum is_while_node n + subtree_sum is_handler_node n) +
      subtree_sum bool_op_excess n) ∧
    (∀ (fn : String) (lines : List String) (nm : String) (an : List String)
        (body : List PyNode) (l e : Nat),
      (function_def_checks fn lines nm an body l e).filter is_complexity_finding =
        if calculate_complexity (.functionDef nm an body l e) > 10 then
          [create_finding fn l
            ("Function '" ++ nm ++ "' has high cyclomatic complexity ("
              ++ toString (calculate_complexity (.functionDef nm an body l e))
              ++ ") - consider simplifying")
            IssueCategory.codeQuality ("def " ++ nm ++ "(...)")
            (some (get_code_context lines l))]
        else []) ∧
    calculate_complexity (c7_fn 11) = 12 ∧
    quality_visit "t.py" c7_lines (c7_fn 11) =
      [create_finding "t.py" 1
        "Function 'branchy' has high cyclomatic complexity (12) - consider simplifying"
        IssueCategory.codeQuality "def branchy(...)"
        (some (get_code_context c7_lines 1))] ∧
    calculate_complexity (c7_fn 9) = 10 ∧
    quality_visit "t.py" c7_lines (c7_fn 9) = [] := by
  refine ⟨?_, function_def_checks_filter_complexity, by decide, by decide,
    by decide, by decide⟩
  intro n
  unfold calculate_complexity
  rw [complexity_count_eq n]
  omega

/-! ## C8: missing-docstring findings -/

theorem is_doc_fn_doc_msg (fn nm : String) (lines : List String) (l : Nat) :
    is_doc_finding (create_finding fn l
      ("Function '" ++ nm ++ "' is missing a docstring")
      IssueCategory.codeQuality ("def " ++ nm ++ "(...)")
      (some (get_code_context lines l))) = true := by
  simp only [is_doc_finding, create_finding, String.data_append]
  exact isSuffixOf_append_right _ (by decide)

theorem is_doc_class_doc_msg (fn nm : String) (lines : List String) (l : Nat) :
    is_doc_finding (create_finding fn l
      ("Class '" ++ nm ++ "' is missing a docstring")
      IssueCategory.codeQuality ("class " ++ nm ++ ":")
      (some (get_code_context lines l))) = true := by
  simp only [is_doc_finding, create_finding, String.data_append]
  exact isSuffixOf_append_right _ (by decide)

theorem is_doc_length_msg (fn nm : String) (lines : List String) (l k : Nat) :
    is_doc_finding (create_finding fn l
      ("Function '" ++ nm ++ "' is too long (" ++ toString k
        ++ " lines) - consider breaking it down")
      IssueCategory.codeQuality ("def " ++ nm ++ "(...)")
      (some (get_code_context lines l))) = false := by
  simp only [is_doc_finding, create_finding, String.data_append]
  exact isSuffixOf_append_false _ (by decide) (by decide)

theorem is_doc_params_msg (fn nm : String) (lines : List String) (l k : Nat) :
    is_doc_finding (create_finding fn l
      ("Function '" ++ nm ++ "' has too many parameters (" ++ toString k
        ++ ") - consider using a config object")
      IssueCategory.codeQuality ("def " ++ nm ++ "(...)")
      (some (get_code_context lines l))) = false := by
  simp only [is_doc_finding, create_finding, String.data_append]
  exact isSuffixOf_append_false _ (by decide) (by decide)

theorem is_doc_cplx_msg (fn nm : String) (lines : List String) (l k : Nat) :
    is_doc_finding (create_finding fn l
      ("Function '" ++ nm ++ "' has high cyclomatic complexity (" ++ toString k
        ++ ") - consider simplifying")
      IssueCategory.codeQuality ("def " ++ nm ++ "(...)")
      (some (get_code_context lines l))) = false := by
  simp only [is_doc_finding, create_finding, String.data_append]
  exact isSuffixOf_append_false _ (by decide) (by decide)

theorem is_doc_methods_msg (fn nm : String) (lines : List String) (l k : Nat) :
    is_doc_finding (create_finding fn l
      ("Class '" ++ nm ++ "' has too many methods (" ++ toString k
        ++ ") - consider splitting into multiple classes")
      IssueCategory.codeQuality ("class " ++ nm ++ ":")
      (some (get_code_context lines l))) = false := by
  simp only [is_doc_finding, create_finding, String.data_append]
  exact isSuffixOf_append_false _ (by decide) (by decide)

theorem is_doc_single_letter_msg (fn id : String) (lines : List String) (l : Nat) :
    is_doc_finding (create_finding fn l
      ("Single-letter variable name '" ++ id ++ "' - use descriptive names")
      IssueCategory.codeQuality (get_line_content lines l)
      (some (get_code_context lines l))) = false := by
  simp only [is_doc_finding, create_finding, String.data_append]
  exact isSuffixOf_append_false _ (by decide) (by decide)

/-- The missing-docstring findings among a function's four checks are exactly
the docstring one. -/
theorem function_def_checks_filter_doc (fn : String) (lines : List String)
    (nm : String) (an : List String) (body : List PyNode) (l e : Nat) :
    (function_def_checks fn lines nm an body l e).filter is_doc_finding =
      if docstring_missing body && !(nm.startsWith "_") then
        [create_finding fn l ("Function '" ++ nm ++ "' is missing a docstring")
          IssueCategory.codeQuality ("def " ++ nm ++ "(...)")
          (some (get_code_context lines l))]
      else [] := by
  unfold function_def_checks
  simp only [List.filter_append]
  rw [show ((if e - l > 50 then
      [create_finding fn l
        ("Function '" ++ nm ++ "' is too long (" ++ toString (e - l)
          ++ " lines) - consider breaking it down")
        IssueCategory.codeQuality ("def " ++ nm ++ "(...)")
        (some (get_code_context lines l))]
    else []).filter is_doc_finding) = [] from by
      split <;> simp [is_doc_length_msg]]
  rw [show ((if an.length > 5 then
      [create_finding fn l
        ("Function '" ++ nm ++ "' has too many parameters (" ++ toString an.length
          ++ ") - consider using a config object")
        IssueCategory.codeQuality ("def " ++ nm ++ "(...)")
        (some (get_code_context lines l))]
    else []).filter is_doc_finding) = [] from by
      split <;> simp [is_doc_params_msg]]
  rw [show ((if calculate_complexity (.functionDef nm an body l e) > 10 then
      [create_finding fn l
        ("Function '" ++ nm ++ "' has high cyclomatic complexity ("
          ++ toString (calculate_complexity (.functionDef nm an body l e))
          ++ ") - consider simplifying")
        IssueCategory.codeQuality ("def " ++ nm ++ "(...)")
        (some (get_code_context lines l))]
    else []).filter is_doc_finding) = [] from by
      split <;> simp [is_doc_cplx_msg]]
  split <;> simp [is_doc_fn_doc_msg]

/-- The missing-docstring findings among a class's two checks are exactly the
docstring one. -/
theorem class_def_checks_filter_doc (fn : String) (lines : List String)
    (nm : String) (body : List PyNode) (l : Nat) :
    (class_def_checks fn lines nm body l).filter is_doc_finding =
      if docstring_missing body && !(nm.startsWith "_") then
        [create_finding fn l ("Class '" ++ nm ++ "' is missing a docstring")
          IssueCategory.codeQuality ("class " ++ nm ++ ":")
          (some (get_code_context lines l))]
      else [] := by
  unfold class_def_checks
  simp only [List.filter_append]
  rw [show ((if (body.filter is_function_def).length > 20 then
      [create_finding fn l
        ("Class '" ++ nm ++ "' has too many methods ("
          ++ toString (body.filter is_function_def).length
          ++ ") - consider splitting into multiple classes")
        IssueCategory.codeQuality ("class " ++ nm ++ ":")
        (some (get_code_context lines l))]
    else []).filter is_doc_finding) = [] from by
      split <;> simp [is_doc_methods_msg]]
  split <;> simp [is_doc_class_doc_msg]

mutual
/-- The missing-docstring findings the amended claim C8 predicts, in
traversal order: one finding per synchronous function definition and per
class definition whose name does not start with an underscore and whose
leading documentation node is absent or empty (Python falsiness of `""`);
asynchronous function definitions contribute nothing. -/
def expected_doc_findings (fn : String) (lines : List String) : PyNode → List Finding
  | .functionDef nm _ body l _ =>
    (if docstring_missing body && !(nm.startsWith "_") then
      [create_finding fn l ("Function '" ++ nm ++ "' is missing a docstring")
        IssueCategory.codeQuality ("def " ++ nm ++ "(...)")
        (some (get_code_context lines l))]
    else []) ++ expected_doc_findings_list fn lines body
  | .classDef nm body l =>
    (if docstring_missing body && !(nm.startsWith "_") then
      [create_finding fn l ("Class '" ++ nm ++ "' is missing a docstring")
        IssueCategory.codeQuality ("class " ++ nm ++ ":")
        (some (get_code_context lines l))]
    else []) ++ expected_doc_findings_list fn lines body
  | .asyncFunctionDef _ _ body _ _ => expected_doc_findings_list fn lines body
  | .name _ _ => []
  | .module body => expected_doc_findings_list fn lines body
  | .forS t i b o l => expected_doc_findings fn lines t ++ expected_doc_findings fn lines i ++ expected_doc_findings_list fn lines b ++ expected_doc_findings_list fn lines o
  | .whileS t b o l => expected_doc_findings fn lines t ++ expected_doc_findings_list fn lines b ++ expected_doc_findings_list fn lines o
  | .ifS t b o l => expected_doc_findings fn lines t ++ expected_doc_findings_list fn lines b ++ expected_doc_findings_list fn lines o
  | .tryS b hs o fb l => expected_doc_findings_list fn lines b ++ expected_doc_findings_list fn lines hs ++ expected_doc_findings_list fn lines o ++ expected_doc_findings_list fn lines fb
  | .exceptHandler b l => expected_doc_findings_list fn lines b
  | .assign ts v l => expected_doc_findings_list fn lines ts ++ expected_doc_findings fn lines v
  | .exprS v l => expected_doc_findings fn lines v
  | .ret v l => expected_doc_findings_list fn lines v
  | .call fc a k l => expected_doc_findings fn lines fc ++ expected_doc_findings_list fn lines a ++ expected_doc_findings_list fn lines k
  | .keywordArg a v => expected_doc_findings fn lines v
  | .Attribute v atr l => expected_doc_findings fn lines v
  | .constant c l => []
  | .boolOp vs l => expected_doc_findings_list fn lines vs
  | .listComp e g l => expected_doc_findings fn lines e ++ expected_doc_findings_list fn lines g
  | .comprehension t i ifs => expected_doc_findings fn lines t ++ expected_doc_findings fn lines i ++ expected_doc_findings_list fn lines ifs
  | .awaitE v l => expected_doc_findings fn lines v

def expected_doc_findings_list (fn : String) (lines : List String) :
    List PyNode → List Finding
  | [] => []
  | h :: t =>
    expected_doc_findings fn lines h ++ expected_doc_findings_list fn lines t
end

mutual
/-- The docstring findings of the CodeQuality visitor are exactly the
expected ones. -/
theorem quality_filter_doc (fn : String) (lines : List String) :
    ∀ n : PyNode, (quality_visit fn lines n).filter is_doc_finding =
      expected_doc_findings fn lines n
  | .functionDef nm an body l e => by
    simp only [quality_visit, expected_doc_findings, List.filter_append]
    rw [function_def_checks_filter_doc, quality_filter_doc_list fn lines body]
  | .classDef nm body l => by
    simp only [quality_visit, expected_doc_findings, List.filter_append]
    rw [class_def_checks_filter_doc, quality_filter_doc_list fn lines body]
  | .asyncFunctionDef nm an body l e => by
    simp only [quality_visit, expected_doc_findings]
    exact quality_filter_doc_list fn lines body
  | .name id l => by
    simp only [quality_visit, expected_doc_findings]
    split <;> simp [is_doc_single_letter_msg]
  | .module body => by
    simp only [quality_visit, expected_doc_findings, List.filter_append]
    rw [quality_filter_doc_list fn lines body]
  | .forS t i b o l => by
    simp only [quality_visit, expected_doc_findings, List.filter_append]
    rw [quality_filter_doc fn lines t, quality_filter_doc fn lines i, quality_filter_doc_list fn lines b, quality_filter_doc_list fn lines o]
  | .whileS t b o l => by
    simp only [quality_visit, expected_doc_findings, List.filter_append]
    rw [quality_filter_doc fn lines t, quality_filter_doc_list fn lines b, quality_filter_doc_list fn lines o]
  | .ifS t b o l => by
    simp only [quality_visit, expected_doc_findings, List.filter_append]
    rw [quality_filter_doc fn lines t, quality_filter_doc_list fn lines b, quality_filter_doc_list fn lines o]
  | .tryS b hs o fb l => by
    simp only [quality_visit, expected_doc_findings, List.filter_append]
    rw [quality_filter_doc_list fn lines b, quality_filter_doc_list fn lines hs, quality_filter_doc_list fn lines o, quality_filter_doc_list fn lines fb]
  | .exceptHandler b l => by
    simp only [quality_visit, expected_doc_findings, List.filter_append]
    rw [quality_filter_doc_list fn lines b]
  | .assign ts v l => by
    simp only [quality_visit, expected_doc_findings, List.filter_append]
    rw [quality_filter_doc_list fn lines ts, quality_filter_doc fn lines v]
  | .exprS v l => by
    simp only [quality_visit, expected_doc_findings, List.filter_append]
    rw [quality_filter_doc fn lines v]
  | .ret v l => by
    simp only [quality_visit, expected_doc_findings, List.filter_append]
    rw [quality_filter_doc_list fn lines v]
  | .call fc a k l => by
    simp only [quality_visit, expected_doc_findings, List.filter_append]
    rw [quality_filter_doc fn lines fc, quality_filter_doc_list fn lines a, quality_filter_doc_list fn lines k]
  | .keywordArg a v => by
    simp only [quality_visit, expected_doc_findings, List.filter_append]
    rw [quality_filter_doc fn lines v]
  | .Attribute v atr l => by
    simp only [quality_visit, expected_doc_findings, List.filter_append]
    rw [quality_filter_doc fn lines v]
  | .constant c l => by
    simp only [quality_visit, expected_doc_findings, List.filter_append]
    simp
  | .boolOp vs l => by
    simp only [quality_visit, expected_doc_findings, List.filter_append]
    rw [quality_filter_doc_list fn lines vs]
  | .listComp e g l => by
    simp only [quality_visit, expected_doc_findings, List.filter_append]
    rw [quality_filter_doc fn lines e, quality_filter_doc_list fn lines g]
  | .comprehension t i ifs => by
    simp only [quality_visit, expected_doc_findings, List.filter_append]
    rw [quality_filter_doc fn lines t, quality_filter_doc fn lines i, quality_filter_doc_list fn lines ifs]
  | .awaitE v l => by
    simp only [quality_visit, expected_doc_findings, List.filter_append]
    rw [quality_filter_doc fn lines v]
theorem quality_filter_doc_list (fn : String) (lines : List String) :
    ∀ l : List PyNode, (quality_visit_list fn lines l).filter is_doc_finding =
      expected_doc_findings_list fn lines l
  | [] => by simp [quality_visit_list, expected_doc_findings_list]
  | h :: t => by
    simp only [quality_visit_list, expected_doc_findings_list, List.filter_append]
    rw [quality_filter_doc fn lines h, quality_filter_doc_list fn lines t]
end


/-- Counterexample to C8: a public asynchronous function definition without a
docstring yields NO finding at all from the CodeQuality visitor —
`visit_FunctionDef` only handles `ast.FunctionDef`, and no
`visit_AsyncFunctionDef` is defined — where the claim demands exactly one
missing-docstring finding at its line. -/
theorem C8_counterexample :
    quality_visit "t.py" ["async def fetch():", "    return 1"]
      (.module [.asyncFunctionDef "fetch" [] [.ret [.constant (.int 1) 2] 2] 1 2])
      = [] := by decide

/-- C8 amended: in a parseable file, the missing-docstring findings are
exactly one finding, at the definition's line, for every synchronous function
definition and every class definition whose name does not start with an
underscore and whose leading documentation node is absent or the empty
string; asynchronous function definitions are never checked. -/
theorem C8_amended_missing_docstring (filename code : String) (t : PyNode) :
    (CodeQualityAnalyzer_analyze filename code (some t)).filter is_doc_finding =
      expected_doc_findings filename (split_lines code) t := by
  unfold CodeQualityAnalyzer_analyze
  exact quality_filter_doc filename (split_lines code) t
